import Mathlib

/-!
Shallow embedding of the RealEstatePredictor estimation core:
  - src/models/price_predictor.py  (PricePredictor, MockModel)
  - src/utils/data_processor.py    (DataProcessor)
  - src/data/property_data.py      (get_sample_data)

Machine floats are idealised as exact rationals; the special IEEE values
+inf, -inf and NaN are modelled explicitly because the code's unguarded
divisions can produce them.  String-valued cells never enter arithmetic in
the theorems below (pandas would raise a TypeError there, which is outside
the modelled domain and outside every claim's scope).
-/

namespace RealEstate

/-- A pandas/numpy cell value: a string (object dtype), an exact rational
standing for a finite float, the two infinities, or NaN (which doubles as
the missing-value marker, as in pandas).  `sqrtv q` is the symbolic value
of `np.sqrt` on a positive rational; the code never feeds a square root
back into arithmetic, so it is a terminal value here.  `dt q` is a pandas
Timestamp, `q` nanoseconds from the epoch — the value `pd.to_datetime`
produces, and the value it turns a numeric cell into. -/
inductive Cell where
  | str (s : String)
  | num (q : ℚ)
  | inf
  | ninf
  | nan
  | sqrtv (q : ℚ)
  | dt (q : ℚ)
  deriving DecidableEq, Repr

namespace Cell

/-- IEEE addition on the modelled domain (exact on finite values). -/
def cadd : Cell → Cell → Cell
  | num a, num b => num (a + b)
  | num _, inf => inf
  | inf, num _ => inf
  | num _, ninf => ninf
  | ninf, num _ => ninf
  | inf, inf => inf
  | ninf, ninf => ninf
  | inf, ninf => nan
  | ninf, inf => nan
  | _, _ => nan

/-- IEEE subtraction on the modelled domain. -/
def csub : Cell → Cell → Cell
  | num a, num b => num (a - b)
  | num _, inf => ninf
  | inf, num _ => inf
  | num _, ninf => inf
  | ninf, num _ => ninf
  | inf, inf => nan
  | ninf, ninf => nan
  | inf, ninf => inf
  | ninf, inf => ninf
  | _, _ => nan

/-- IEEE multiplication on the modelled domain (0 * inf = NaN). -/
def cmul : Cell → Cell → Cell
  | num a, num b => num (a * b)
  | num a, inf => if a = 0 then nan else if 0 < a then inf else ninf
  | inf, num a => if a = 0 then nan else if 0 < a then inf else ninf
  | num a, ninf => if a = 0 then nan else if 0 < a then ninf else inf
  | ninf, num a => if a = 0 then nan else if 0 < a then ninf else inf
  | inf, inf => inf
  | ninf, ninf => inf
  | inf, ninf => ninf
  | ninf, inf => ninf
  | _, _ => nan

/-- IEEE division on the modelled domain: a finite nonzero value divided by
(positive) zero is a signed infinity, 0/0 is NaN. -/
def cdiv : Cell → Cell → Cell
  | num a, num b =>
      if b = 0 then (if a = 0 then nan else if 0 < a then inf else ninf)
      else num (a / b)
  | num _, inf => num 0
  | num _, ninf => num 0
  | inf, num b => if 0 ≤ b then inf else ninf
  | ninf, num b => if 0 ≤ b then ninf else inf
  | _, _ => nan

/-- IEEE absolute value on the modelled domain. -/
def cabs : Cell → Cell
  | num a => num |a|
  | inf => inf
  | ninf => inf
  | _ => nan

/-- `np.sqrt` on the modelled domain; a positive rational input is kept
symbolic (the code never reuses the value arithmetically). -/
def csqrt : Cell → Cell
  | num q => if q = 0 then num 0 else if q < 0 then nan else sqrtv q
  | inf => inf
  | _ => nan

/-- Left-to-right accumulating sum, as numpy and pandas reductions do. -/
def csum (l : List Cell) : Cell := l.foldl cadd (num 0)

/-- `np.mean`: the plain sum divided by the length (does not skip NaN;
the mean of an empty array is NaN via 0/0). -/
def npMean (l : List Cell) : Cell := cdiv (csum l) (num l.length)

/-- `pandas.Series.mean`: skips NaN entries; NaN when nothing remains. -/
def pdMean (l : List Cell) : Cell :=
  let vs := l.filter (fun c => c ≠ nan)
  match vs with
  | [] => nan
  | _ => cdiv (csum vs) (num vs.length)

/-- A cell is a finite number. -/
def isNum : Cell → Bool
  | num _ => true
  | _ => false

end Cell

/-! ## PricePredictor.predict: the PredictionResult construction
(src/models/price_predictor.py lines 104-117). -/

/-- The dictionary returned by `PricePredictor.predict`. -/
structure PredictionResult where
  predicted_price : ℚ
  lower_bound : ℚ
  upper_bound : ℚ
  confidence_score : ℚ
  deriving DecidableEq, Repr

/-- `confidence = 0.10  # 10% of predicted price`. -/
def confidence : ℚ := 1/10

/-- Lines 108-117 of price_predictor.py: the fixed ±10% band around the
model's point estimate `p`. -/
def predictionResult (p : ℚ) : PredictionResult :=
  { predicted_price := p
    lower_bound := p * (1 - confidence)
    upper_bound := p * (1 + confidence)
    confidence_score := 1 - confidence }

/-! ## Synthetic data generator (src/data/property_data.py). -/

/-- One generated property record. -/
structure PropertyRecord where
  id : ℕ
  location : String
  property_type : String
  bedrooms : ℕ
  bathrooms : ℚ
  square_feet : ℕ
  year_built : ℤ
  has_garage : Bool
  has_pool : Bool
  has_garden : Bool
  price : ℚ
  deriving DecidableEq, Repr

/-- `location_factors` table of get_sample_data. -/
def location_factors : List (String × ℚ) :=
  [("Riga Center", 16/10), ("Vecriga (Old Town)", 18/10), ("Agenskalns", 12/10),
   ("Purvciems", 1), ("Kengarags", 9/10), ("Jugla", 1), ("Imanta", 11/10),
   ("Ziepniekkalns", 95/100), ("Teika", 13/10), ("Ieala", 15/10)]

/-- `property_type_factors` table of get_sample_data. -/
def property_type_factors : List (String × ℚ) :=
  [("Single Family Home", 12/10), ("Condo/Apartment", 1), ("Townhouse", 11/10),
   ("Multi-Family", 13/10), ("Luxury Villa", 2)]

/-- Python's banker's rounding of a rational to the nearest integer
(ties to even), idealising `round` on floats. -/
def roundHalfEven (q : ℚ) : ℤ :=
  let f := ⌊q⌋
  let r := q - f
  if r < 1/2 then f
  else if 1/2 < r then f + 1
  else if Even f then f else f + 1

/-- Python's `round(x, -3)`: round to the nearest thousand, ties to even. -/
def roundThousand (q : ℚ) : ℚ := 1000 * roundHalfEven (q / 1000)

/-- The price formula of get_sample_data (lines 63-78): the linear raw
price scaled by the location, type and noise factors, rounded to the
nearest thousand and floored at 100000. -/
def genPrice (square_feet : ℕ) (bedrooms : ℕ) (bathrooms : ℚ) (year_built : ℤ)
    (garage pool garden : Bool) (locF typeF noise : ℚ) : ℚ :=
  let raw : ℚ :=
    (200000 + (square_feet : ℚ) * 150 + (bedrooms : ℚ) * 20000 + bathrooms * 15000
      + ((2023 - year_built : ℤ) : ℚ) * (-500)
      + (if garage then 50000 else 0)
      + (if pool then 80000 else 0)
      + (if garden then 30000 else 0)) * locF * typeF * noise
  max (roundThousand raw) 100000

/-- One record of get_sample_data, parameterised over the random draws
(each draw's range is the one the source requests from `random`).  The
factor lookups always succeed because the generator draws `location` and
`property_type` from the tables' key lists. -/
def genRecord (i : ℕ) (loc ptype : String) (bedrooms : ℕ) (bathrooms : ℚ)
    (square_feet : ℕ) (year_built : ℤ) (garage pool garden : Bool)
    (noise : ℚ) : PropertyRecord :=
  { id := i
    location := loc
    property_type := ptype
    bedrooms := bedrooms
    bathrooms := bathrooms
    square_feet := square_feet
    year_built := year_built
    has_garage := garage
    has_pool := pool
    has_garden := garden
    price := genPrice square_feet bedrooms bathrooms year_built garage pool garden
      ((location_factors.lookup loc).getD 0)
      ((property_type_factors.lookup ptype).getD 0) noise }

/-! ## PricePredictor.evaluate metrics (lines 134-147). -/

/-- The metrics dictionary returned by `evaluate`. -/
structure Metrics where
  mse : Cell
  rmse : Cell
  mae : Cell
  r2 : Cell
  deriving DecidableEq, Repr

/-- Lines 134-147 of price_predictor.py: mse, rmse, mae and r2 over a test
set, with `y_pred` the (opaque) fitted model's prediction vector. -/
def evaluateMetrics (y_test y_pred : List Cell) : Metrics :=
  let diffs := List.zipWith Cell.csub y_test y_pred
  let sq := diffs.map (fun d => Cell.cmul d d)
  let mse := Cell.npMean sq
  let ymean := Cell.npMean y_test
  let tss := Cell.csum (y_test.map (fun y => Cell.cmul (Cell.csub y ymean) (Cell.csub y ymean)))
  { mse := mse
    rmse := Cell.csqrt mse
    mae := Cell.npMean (diffs.map Cell.cabs)
    r2 := Cell.csub (Cell.num 1) (Cell.cdiv (Cell.csum sq) tss) }

/-! ## DataFrame model.

A pandas DataFrame is a list of named columns; each column carries its
dtype flag (`obj` = object dtype, the only dtype the cleaning code
branches on) and its cells.  Row selection (boolean masks, sorts) is
modelled column-major, as pandas itself applies a row indexer to every
column. -/

/-- A pandas column: dtype flag and cells. -/
structure Col where
  obj : Bool
  cells : List Cell
  deriving DecidableEq, Repr

/-- A pandas DataFrame: named columns in order. -/
structure DF where
  cols : List (String × Col)
  deriving DecidableEq, Repr

namespace DF

/-- The column labels, in order. -/
def names (d : DF) : List String := d.cols.map Prod.fst

/-- `len(df)`: the row count (the length of the first column). -/
def nrows (d : DF) : ℕ :=
  match d.cols with
  | [] => 0
  | c :: _ => c.2.cells.length

/-- `name in df.columns`. -/
def hasCol (d : DF) (name : String) : Bool := d.names.contains name

/-- `df[name]` as a cell list ([] when absent; the claims' theorems only
read columns that are present, where pandas would otherwise raise). -/
def colCells (d : DF) (name : String) : List Cell :=
  match d.cols.lookup name with
  | some c => c.cells
  | none => []

/-- `df[name] = col`: overwrite in place if the label exists, else append
a new column at the end — pandas column assignment. -/
def setCol (d : DF) (name : String) (c : Col) : DF :=
  if d.hasCol name then
    ⟨d.cols.map (fun p => if p.1 = name then (name, c) else p)⟩
  else ⟨d.cols ++ [(name, c)]⟩

/-- Apply a boolean row mask to one column. -/
def maskCol (mask : List Bool) (c : Col) : Col :=
  ⟨c.obj, ((mask.zip c.cells).filter (fun p => p.1)).map Prod.snd⟩

/-- `df[mask]`: keep the rows whose mask entry is true. -/
def maskRows (d : DF) (mask : List Bool) : DF :=
  ⟨d.cols.map (fun p => (p.1, maskCol mask p.2))⟩

/-- Select rows by index list (a positional row indexer, as a sort or
head produces). -/
def selectRows (d : DF) (idx : List ℕ) : DF :=
  ⟨d.cols.map (fun p => (p.1, ⟨p.2.obj, idx.map (fun i => p.2.cells.getD i Cell.nan)⟩))⟩

/-- Every column has the same number of rows. -/
def wf (d : DF) : Prop := ∀ c ∈ d.cols, c.2.cells.length = d.nrows

end DF

/-! ## Cell comparisons (pandas/numpy semantics: every comparison with
NaN is false; strings never meet numbers in the modelled domain). -/

/-- Strict `<` as numpy compares values during a sort, with NaN ordered
last (pandas `sort_values` uses `na_position='last'`).  Rank 4 marks the
values outside the numeric sort/median domain (strings, symbolic square
roots, timestamps — none occurs in a numeric column in the theorems
below). -/
def sortRank : Cell → ℕ
  | Cell.ninf => 0
  | Cell.num _ => 1
  | Cell.inf => 2
  | Cell.nan => 3
  | Cell.str _ => 4
  | Cell.sqrtv _ => 4
  | Cell.dt _ => 4

/-- The sort-key order on cells: numbers by value, `-inf < num < inf`,
NaN after everything. -/
def keyLtB (a b : Cell) : Bool :=
  match a, b with
  | Cell.num x, Cell.num y => x < y
  | _, _ => sortRank a < sortRank b

/-- `cell >= m` (pandas): false on NaN. -/
def cellGeQ (c : Cell) (m : ℚ) : Bool :=
  match c with
  | Cell.num q => m ≤ q
  | Cell.inf => true
  | _ => false

/-- `cell <= m` (pandas): false on NaN. -/
def cellLeQ (c : Cell) (m : ℚ) : Bool :=
  match c with
  | Cell.num q => q ≤ m
  | Cell.ninf => true
  | _ => false

/-- `cell > z` for an integer bound (the year check): false on NaN. -/
def cellGtZ (c : Cell) (z : ℤ) : Bool :=
  match c with
  | Cell.num q => (z : ℚ) < q
  | Cell.inf => true
  | _ => false

/-- `cell == s` for a string criterion (pandas `==`; a number never
equals a string, NaN equals nothing). -/
def cellEqStr (c : Cell) (s : String) : Bool :=
  match c with
  | Cell.str t => t = s
  | _ => false

/-- pandas `==` between two cells (NaN is equal to nothing, mixed
string/number compare unequal). -/
def cellEqB (a b : Cell) : Bool :=
  match a, b with
  | Cell.num x, Cell.num y => x = y
  | Cell.str x, Cell.str y => x = y
  | Cell.dt x, Cell.dt y => x = y
  | Cell.inf, Cell.inf => true
  | Cell.ninf, Cell.ninf => true
  | _, _ => false

/-- Python's `str.endswith`, over the character list (semantically equal
to String.endsWith, but fully computable by the kernel). -/
def strEndsWith (s suffix : String) : Bool :=
  decide (suffix.data.length ≤ s.data.length) &&
    decide (s.data.drop (s.data.length - suffix.data.length) = suffix.data)

/-- Stable insertion: place `x` before the first element not strictly
below it, so elements processed earlier stay before later equal keys. -/
def insertByLt {α : Type} (lt : α → α → Bool) (x : α) : List α → List α
  | [] => [x]
  | y :: t => if lt y x then y :: insertByLt lt x t else x :: y :: t

/-- Stable insertion sort by a strict comparison. -/
def sortByLt {α : Type} (lt : α → α → Bool) : List α → List α
  | [] => []
  | x :: t => insertByLt lt x (sortByLt lt t)

/-- `Series.min` (skips NaN; NaN when nothing remains). -/
def pdMin (l : List Cell) : Cell :=
  let vs := l.filter (fun c => c ≠ Cell.nan)
  match vs with
  | [] => Cell.nan
  | x :: t => t.foldl (fun a b => if keyLtB b a then b else a) x

/-- `Series.max` (skips NaN; NaN when nothing remains). -/
def pdMax (l : List Cell) : Cell :=
  let vs := l.filter (fun c => c ≠ Cell.nan)
  match vs with
  | [] => Cell.nan
  | x :: t => t.foldl (fun a b => if keyLtB a b then b else a) x

/-- `Series.value_counts()`: distinct non-NaN values with their counts,
sorted by descending count (stable, so equal counts keep first-appearance
order; the concrete inputs below have no count ties, where pandas leaves
the order unspecified). -/
def valueCounts (l : List Cell) : List (Cell × ℕ) :=
  let vs := l.filter (fun c => c ≠ Cell.nan)
  let pairs := vs.eraseDups.map (fun c => (c, vs.count c))
  sortByLt (fun p q => q.2 < p.2) pairs

/-! ## DataProcessor (src/utils/data_processor.py). -/

namespace DataProcessor

/-- `re.sub(r'[^\d.]', '', s)`: keep only digits and dots. -/
def stripNonNumeric (s : String) : String :=
  String.mk (s.data.filter (fun c => c.isDigit || c = '.'))

/-- Value of a digit list read in base 10. -/
def digitsVal (l : List Char) : ℕ :=
  l.foldl (fun a c => 10 * a + (c.toNat - 48)) 0

/-- Python `float()` on a string of digits and dots: defined when there
is at most one dot and at least one digit. -/
def parseDigitDotL (cs : List Char) : Option ℚ :=
  if cs.all (fun c => c.isDigit || c = '.') ∧ cs.count '.' ≤ 1 ∧ cs.any (fun c => c.isDigit)
  then
    let ip := cs.takeWhile (fun c => c ≠ '.')
    let fp := (cs.dropWhile (fun c => c ≠ '.')).drop 1
    some ((digitsVal ip : ℚ) + (digitsVal fp : ℚ) / ((10 : ℚ) ^ fp.length))
  else none

/-- Python float parsing of a general string as `pd.to_numeric(errors=
'coerce')` applies it: optional surrounding blanks and sign, then a
digits-and-dot body.  (Exponent notation is not modelled; no claim and no
concrete input below uses it.) -/
def pyFloatOfString (s : String) : Option ℚ :=
  match s.trim.data with
  | '-' :: rest => (parseDigitDotL rest).map Neg.neg
  | '+' :: rest => parseDigitDotL rest
  | t => parseDigitDotL t

/-- `DataProcessor._extract_price` (lines 52-66): NaN stays NaN, numbers
pass through, a string is stripped to digits and dots and parsed, an
unparsable remainder becomes NaN.  (A Timestamp in an object price column
would be stringified and re-parsed by the regex; that path is not
modelled — timestamps only ever occur in `date_listed`, which no
extraction touches — and the fallback NaN is never reached by a
theorem.) -/
def extract_price : Cell → Cell
  | Cell.nan => Cell.nan
  | Cell.num q => Cell.num q
  | Cell.inf => Cell.inf
  | Cell.ninf => Cell.ninf
  | Cell.sqrtv q => Cell.sqrtv q
  | Cell.dt _ => Cell.nan
  | Cell.str s =>
      match parseDigitDotL (stripNonNumeric s).data with
      | some q => Cell.num q
      | none => Cell.nan

/-- Take the leading run of digits. -/
def takeDigits : List Char → List Char × List Char
  | [] => ([], [])
  | c :: t =>
      if c.isDigit then
        let p := takeDigits t
        (c :: p.1, p.2)
      else ([], c :: t)

/-- First match of `re.findall(r'\d+\.?\d*', s)`: the first maximal run
of digits, optionally followed by a dot and more digits. -/
def findNumber : List Char → Option (List Char)
  | [] => none
  | c :: t =>
      if c.isDigit then
        let p := takeDigits (c :: t)
        match p.2 with
        | '.' :: r2 => some (p.1 ++ '.' :: (takeDigits r2).1)
        | _ => some p.1
      else findNumber t

/-- `DataProcessor._extract_numeric` (lines 68-81; the Timestamp case is
out of the modelled domain, as in `extract_price`). -/
def extract_numeric : Cell → Cell
  | Cell.nan => Cell.nan
  | Cell.num q => Cell.num q
  | Cell.inf => Cell.inf
  | Cell.ninf => Cell.ninf
  | Cell.sqrtv q => Cell.sqrtv q
  | Cell.dt _ => Cell.nan
  | Cell.str s =>
      match findNumber s.data with
      | some ds =>
          match parseDigitDotL ds with
          | some q => Cell.num q
          | none => Cell.nan
      | none => Cell.nan

/-- `pd.to_numeric(errors='coerce')` on one cell.  (The code applies it
only to `year_built`; a Timestamp there — where pandas would convert a
datetime64 column to its nanosecond integers — passes through untouched,
a simplification no theorem relies on: timestamps only ever occur in
`date_listed`.) -/
def to_numeric_cell : Cell → Cell
  | Cell.str s =>
      match pyFloatOfString s with
      | some q => Cell.num q
      | none => Cell.nan
  | c => c

/-- `Series.median()`: sort the non-NaN values, take the middle one (odd
count) or the mean of the two middle ones (even count); NaN when nothing
remains.  (String cells never occur in a numeric column in the modelled
domain; they are skipped for totality.) -/
def medianCell (cells : List Cell) : Cell :=
  let vs := cells.filter (fun c => c ≠ Cell.nan && !(sortRank c = 4 : Bool))
  let sorted := sortByLt keyLtB vs
  let k := sorted.length
  if k = 0 then Cell.nan
  else if k % 2 = 1 then sorted.getD (k / 2) Cell.nan
  else Cell.cdiv (Cell.cadd (sorted.getD (k / 2 - 1) Cell.nan) (sorted.getD (k / 2) Cell.nan))
    (Cell.num 2)

/-- `col.fillna(col.median(), inplace=True)`: replace NaN cells by the
column median; when the median is itself NaN (no values) nothing changes. -/
def fillnaMedian (cells : List Cell) : List Cell :=
  match medianCell cells with
  | Cell.nan => cells
  | m => cells.map (fun c => if c = Cell.nan then m else c)

/-- `data.loc[data['year_built'] > current_year, 'year_built'] = np.nan`. -/
def clampYear (cy : ℤ) (cells : List Cell) : List Cell :=
  cells.map (fun c => if cellGtZ c cy then Cell.nan else c)

/-- The columns converted by `_extract_numeric` (lines 35-41). -/
def numericNames : List String := ["square_feet", "bedrooms", "bathrooms"]

/-- `DataProcessor.clean_property_data` on one column (the function acts
columnwise; `cy` is `datetime.now().year`):
step 1 is the fillna loop (lines 24-28: object columns get the "Unknown"
sentinel, numeric columns get the median), step 2 the price extraction
(lines 31-32), step 3 the square_feet/bedrooms/bathrooms extraction
(lines 35-41), step 4 the year_built coercion, future-year invalidation
and median imputation (lines 44-48). -/
def cleanCol (cy : ℤ) (name : String) (col : Col) : Col :=
  let col1 : Col :=
    if col.obj then
      ⟨true, col.cells.map (fun c => if c = Cell.nan then Cell.str "Unknown" else c)⟩
    else ⟨false, fillnaMedian col.cells⟩
  let col2 : Col :=
    if name = "price" ∧ col1.obj then ⟨false, col1.cells.map extract_price⟩ else col1
  let col3 : Col :=
    if name ∈ numericNames ∧ col2.obj then ⟨false, col2.cells.map extract_numeric⟩ else col2
  if name = "year_built" then
    ⟨false, fillnaMedian (clampYear cy (col3.cells.map to_numeric_cell))⟩
  else col3

/-- `DataProcessor.clean_property_data` (lines 9-50).  Returns the
cleaned table together with the caller's frame after the call — line 21
copies the input (`data = df.copy()`), so the caller's frame is returned
unchanged. -/
def clean_property_data (cy : ℤ) (df : DF) : DF × DF :=
  (⟨df.cols.map (fun p => (p.1, cleanCol cy p.1 p.2))⟩, df)

/-- The filter criteria dictionary of `filter_properties`; `none` covers
both an absent key and an explicit `None` value (the source tests both). -/
structure Filters where
  min_price : Option ℚ := none
  max_price : Option ℚ := none
  min_bedrooms : Option ℚ := none
  min_bathrooms : Option ℚ := none
  min_square_feet : Option ℚ := none
  location : Option String := none
  property_type : Option String := none
  deriving DecidableEq, Repr

/-- One `>=` filter step of `filter_properties`. -/
def applyGe (d : DF) (name : String) (v : Option ℚ) : DF :=
  match v with
  | none => d
  | some m => d.maskRows ((d.colCells name).map (fun c => cellGeQ c m))

/-- One `<=` filter step of `filter_properties`. -/
def applyLe (d : DF) (name : String) (v : Option ℚ) : DF :=
  match v with
  | none => d
  | some m => d.maskRows ((d.colCells name).map (fun c => cellLeQ c m))

/-- One equality filter step of `filter_properties` (a criterion equal to
"All" is a no-op). -/
def applyEqStr (d : DF) (name : String) (v : Option String) : DF :=
  match v with
  | none => d
  | some s =>
      if s = "All" then d
      else d.maskRows ((d.colCells name).map (fun c => cellEqStr c s))

/-- `DataProcessor.filter_properties` (lines 148-184).  Returns the
subset together with the caller's frame after the call — line 160 copies
(`filtered_data = data.copy()`), so the caller's frame is unchanged. -/
def filter_properties (df : DF) (f : Filters) : DF × DF :=
  let d1 := applyGe df "price" f.min_price
  let d2 := applyLe d1 "price" f.max_price
  let d3 := applyGe d2 "bedrooms" f.min_bedrooms
  let d4 := applyGe d3 "bathrooms" f.min_bathrooms
  let d5 := applyGe d4 "square_feet" f.min_square_feet
  let d6 := applyEqStr d5 "location" f.location
  let d7 := applyEqStr d6 "property_type" f.property_type
  (d7, df)

/-- The insights dictionary of `generate_market_insights`.  The
`price_trends` entry (a monthly resample of listing dates, presentation
data used by charts) is not modelled; no claim mentions it. -/
structure Insights where
  avg_price : Cell
  price_range : Cell × Cell
  avg_price_per_sqft : Cell
  popular_locations : List Cell
  property_type_distribution : List (Cell × ℕ)
  deriving DecidableEq, Repr

/-- `pd.to_datetime` on one cell (line 132): a numeric entry is read as a
nanosecond epoch offset and becomes a Timestamp, an existing Timestamp is
unchanged, and NaN becomes NaT (represented here by the missing-value
marker, which is how pandas treats NaT).  A string would go through the
datetime parser (raising on unparsable input) and an infinity raises
OutOfBoundsDatetime; neither belongs to the modelled domain of a
`date_listed` column, so both fall to NaN for totality — no theorem
below reaches those two cases. -/
def to_datetime_cell : Cell → Cell
  | Cell.num q => Cell.dt q
  | Cell.dt q => Cell.dt q
  | _ => Cell.nan

/-- `DataProcessor.generate_market_insights` (lines 83-146).  Returns the
insights together with the caller's frame after the call.  The function
does NOT copy its input, and mutates it twice: line 111
(`data['price_per_sqft'] = data['price'] / data['square_feet']`) assigns
the ratio column on the caller's frame whenever a `square_feet` column is
present, and line 132 (`data['date_listed'] =
pd.to_datetime(data['date_listed'])`, guarded by line 131's check that
both `date_listed` and `price` are columns) rewrites the `date_listed`
column in place, converting every entry through `to_datetime_cell` and
giving the column the datetime64 dtype.  Line 133's
`data = data.sort_values('date_listed')` only rebinds the local name, and
lines 136-137 only read the frame to build `price_trends` (a monthly mean
resample, presentation data not modelled; no claim mentions it). -/
def generate_market_insights (df : DF) : Insights × DF :=
  if df.nrows = 0 then
    ({ avg_price := Cell.num 0
       price_range := (Cell.num 0, Cell.num 0)
       avg_price_per_sqft := Cell.num 0
       popular_locations := []
       property_type_distribution := [] }, df)
  else
    let prices := df.colCells "price"
    let step :=
      if df.hasCol "square_feet" then
        let ratio := List.zipWith Cell.cdiv prices (df.colCells "square_feet")
        (Cell.pdMean ratio, df.setCol "price_per_sqft" ⟨false, ratio⟩)
      else (Cell.num 0, df)
    let post :=
      if step.2.hasCol "date_listed" && step.2.hasCol "price" then
        step.2.setCol "date_listed"
          ⟨false, (step.2.colCells "date_listed").map to_datetime_cell⟩
      else step.2
    ({ avg_price := Cell.pdMean prices
       price_range := (pdMin prices, pdMax prices)
       avg_price_per_sqft := step.1
       popular_locations :=
         if df.hasCol "location" then
           ((valueCounts (df.colCells "location")).take 5).map Prod.fst
         else []
       property_type_distribution :=
         if df.hasCol "property_type" then valueCounts (df.colCells "property_type")
         else [] }, post)

/-- The feature weights of `get_similar_properties` (lines 203-208), in
insertion order. -/
def weightsList : List (String × ℚ) :=
  [("price", 4/10), ("square_feet", 3/10), ("bedrooms", 15/100), ("bathrooms", 15/100)]

/-- Lines 211-215: for each weighted feature present both in the frame
and in the reference dictionary, add the `<feature>_diff` column
(normalised absolute distance, divided by the column maximum with no
zero guard) and the `<feature>_score` column (the weighted distance). -/
def addScoreCols (df : DF) (ref : List (String × Cell)) : DF :=
  weightsList.foldl
    (fun d fw =>
      match d.hasCol fw.1, ref.lookup fw.1 with
      | true, some rv =>
          let mx := pdMax (d.colCells fw.1)
          let diffs := (d.colCells fw.1).map (fun c => Cell.cdiv (Cell.cabs (Cell.csub c rv)) mx)
          (d.setCol (fw.1 ++ "_diff") ⟨false, diffs⟩).setCol (fw.1 ++ "_score")
            ⟨false, diffs.map (fun c => Cell.cmul c (Cell.num fw.2))⟩
      | _, _ => d)
    df

/-- `df[score_columns].sum(axis=1)` skips NaN cells and sums an empty
selection to 0 (pandas row-sum defaults). -/
def skipNaSum (l : List Cell) : Cell :=
  Cell.csum (l.filter (fun c => c ≠ Cell.nan))

/-- Line 218-219: the row-wise sum of every column whose label ends in
`_score`. -/
def simScoreList (d : DF) : List Cell :=
  let scoreCols := (d.cols.filter (fun p => strEndsWith p.1 "_score")).map (fun p => p.2.cells)
  (List.range d.nrows).map (fun i => skipNaSum (scoreCols.map (fun c => c.getD i Cell.nan)))

/-- The guarantee `df.sort_values('similarity_score')` (line 226) gives
about its row order: the order is a permutation of the row positions that
is ascending in the key, with NaN keys last (`na_position='last'`).  The
call uses the default `kind='quicksort'`, which pandas documents as NOT
stable, so the relative order of rows with equal keys is unspecified:
any `perm` satisfying this predicate is an admissible outcome, and the
embedding takes the produced order as a parameter constrained by it
instead of fixing a tie-breaking rule the library does not promise. -/
def sortValuesSorted (scores : List Cell) (perm : List ℕ) : Prop :=
  List.Perm perm (List.range scores.length) ∧
  List.Pairwise
    (fun i j => keyLtB (scores.getD j Cell.nan) (scores.getD i Cell.nan) = false) perm

/-- `DataProcessor.get_similar_properties` (lines 186-227).  Returns the
selection together with the caller's frame after the call — line 200
copies, so the caller's frame is unchanged.  Steps: add the scoring
columns, sum them into `similarity_score`, drop the reference row by id
(only when both the reference and the frame carry an `id`), sort
ascending by score, keep the first `n` rows, and drop every column whose
label ends in `_diff` or `_score`.  `perm` is the row order the unstable
sort produced (see `sortValuesSorted`); the contract theorems quantify
over every admissible order. -/
def get_similar_properties (df : DF) (ref : List (String × Cell)) (n : ℕ)
    (perm : List ℕ) : DF × DF :=
  let d0 := addScoreCols df ref
  let d1 := d0.setCol "similarity_score" ⟨false, simScoreList d0⟩
  let d2 :=
    match ref.lookup "id", d1.hasCol "id" with
    | some rid, true => d1.maskRows ((d1.colCells "id").map (fun c => !cellEqB c rid))
    | _, _ => d1
  let picked := d2.selectRows (perm.take n)
  (⟨picked.cols.filter (fun p => !(strEndsWith p.1 "_diff" || strEndsWith p.1 "_score"))⟩, df)

end DataProcessor

/-! ## PricePredictor state and operations (src/models/price_predictor.py).

The fitted sklearn pipeline is opaque: its numeric output is a parameter
of `predict` and `evaluate` (the regression itself is stock library code,
not part of this repository).  The file system seen by `save_model` /
`load_model` is modelled as the list of existing paths. -/

/-- The explicit failures raised by the predictor's operations. -/
inductive PError where
  | notTrained
  | fileNotFound
  deriving DecidableEq, Repr

/-- The predictor's own state: the trained flag and the feature-name
schema recorded by `train`. -/
structure PState where
  model_trained : Bool
  features : List String
  deriving DecidableEq, Repr

/-- The argument of `predict`: a single-record dictionary or a DataFrame. -/
inductive PredictInput where
  | dict (d : List (String × Cell))
  | frame (df : DF)
  deriving DecidableEq, Repr

/-- `pd.DataFrame([features])` for a dictionary argument: a fresh
one-row frame (string values give an object column). -/
def dfOfDict (d : List (String × Cell)) : PredictInput :=
  PredictInput.frame
    ⟨d.map (fun p => (p.1, ⟨match p.2 with | Cell.str _ => true | _ => false, [p.2]⟩))⟩

/-- Lines 98-101 of predict: for every training-schema feature absent
from the frame, assign a zero column (`features_df[feature] = 0`) on that
same frame. -/
def addMissingFeatures (features : List String) (df : DF) : DF :=
  features.foldl
    (fun acc f =>
      if acc.hasCol f then acc
      else acc.setCol f ⟨false, List.replicate acc.nrows (Cell.num 0)⟩)
    df

/-- `PricePredictor.predict` (lines 79-117), with the pipeline's point
estimate abstracted as `mo` (`self.model.predict(features_df)[0]`).
Returns the result together with the caller's argument after the call: a
dictionary is first converted to a fresh frame (line 94) so it is
returned unchanged, while a frame argument is aliased (line 96) and so is
returned with the zero columns added in place. -/
def predict (st : PState) (input : PredictInput) (mo : ℚ) :
    Except PError (PredictionResult × PredictInput) :=
  if st.model_trained = false then Except.error PError.notTrained
  else
    match input with
    | PredictInput.dict d => Except.ok (predictionResult mo, PredictInput.dict d)
    | PredictInput.frame df =>
        Except.ok (predictionResult mo, PredictInput.frame (addMissingFeatures st.features df))

/-- `PricePredictor.evaluate` (lines 119-147), with the pipeline's
prediction vector abstracted as `y_pred`. -/
def evaluate (st : PState) (y_test y_pred : List Cell) : Except PError Metrics :=
  if st.model_trained = false then Except.error PError.notTrained
  else Except.ok (evaluateMetrics y_test y_pred)

/-- `PricePredictor.save_model` (lines 149-154): fails when untrained,
otherwise `joblib.dump` creates the file; returns the file system after
the call. -/
def save_model (st : PState) (filepath : String) (fs : List String) :
    Except PError (List String) :=
  if st.model_trained = false then Except.error PError.notTrained
  else Except.ok (fs.insert filepath)

/-- `PricePredictor.load_model` (lines 156-162): fails when the path does
not exist, otherwise loads and marks the state trained. -/
def load_model (st : PState) (filepath : String) (fs : List String) :
    Except PError PState :=
  if fs.contains filepath then Except.ok { st with model_trained := true }
  else Except.error PError.fileNotFound

/-! ## MockModel (get_demo_model, lines 164-205).

`X[label].values[0]` reads the first cell of a column; when the column is
absent the code falls back to `X[0]`, which on a string-labelled frame
raises KeyError.  Inside the `try` block any string operand would raise a
TypeError at the first addition.  Every exception is swallowed by the
bare `except`. -/

/-- First cell of a named column (`X[name].values[0]`); `none` when the
column is absent (the `X[0]` fallback then raises on string-labelled
frames) or empty (IndexError). -/
def getFeatureCell (df : DF) (name : String) : Option Cell :=
  match df.cols.lookup name with
  | some c => c.cells.head?
  | none => none

/-- Python `max(price, 50000)`: 50000 replaces `price` only when the
comparison `price < 50000` holds (false on NaN, so NaN and +inf pass
through, as in Python). -/
def pyMaxFloor (price : Cell) : Cell :=
  match price with
  | Cell.num q => if q < 50000 then Cell.num 50000 else Cell.num q
  | Cell.ninf => Cell.num 50000
  | c => c

/-- The body of MockModel's `try` block (lines 182-196): the linear
formula plus the Gaussian draw `noise`, floored at 50000; an absent
column, an empty frame, or a string operand raises (`Except.error`). -/
def mockTryPrice (df : DF) (noise : ℚ) : Except Unit Cell := do
  let some sq := getFeatureCell df "square_feet" | Except.error ()
  let some bd := getFeatureCell df "bedrooms" | Except.error ()
  let some ba := getFeatureCell df "bathrooms" | Except.error ()
  if sortRank sq = 4 ∨ sortRank bd = 4 ∨ sortRank ba = 4 then Except.error ()
  else
    let price := Cell.cadd (Cell.cadd (Cell.cadd (Cell.cadd (Cell.num 150000)
      (Cell.cmul sq (Cell.num 200))) (Cell.cmul bd (Cell.num 25000)))
      (Cell.cmul ba (Cell.num 15000))) (Cell.num noise)
    Except.ok (pyMaxFloor price)

/-- `MockModel.predict` (lines 179-199): the `try` body's value, or —
on any exception — the constant-mean fallback `250000 + fbNoise`
(`250000 + np.random.normal(0, 25000)`). -/
def mockPredict (df : DF) (noise fbNoise : ℚ) : Cell :=
  match mockTryPrice df noise with
  | Except.ok p => p
  | Except.error _ => Cell.num (250000 + fbNoise)

/-! ## Concrete example frames used by counterexamples and witnesses. -/

/-- An object-dtype price column holding one number and one missing
entry. -/
def dfPriceObj : DF := ⟨[("price", ⟨true, [Cell.num 1, Cell.nan]⟩)]⟩

/-- A frame with one zero-area listing. -/
def dfZeroArea : DF :=
  ⟨[("price", ⟨false, [Cell.num 100000, Cell.num 200000]⟩),
    ("square_feet", ⟨false, [Cell.num 0, Cell.num 1000]⟩)]⟩

/-- A frame with a price column and a numeric date_listed column (an
epoch-offset listing date, which to_datetime rewrites to a Timestamp). -/
def dfDateNum : DF :=
  ⟨[("price", ⟨false, [Cell.num 100000]⟩),
    ("date_listed", ⟨false, [Cell.num 0]⟩)]⟩

/-- A three-listing frame for the similarity search. -/
def dfThree : DF :=
  ⟨[("id", ⟨false, [Cell.num 1, Cell.num 2, Cell.num 3]⟩),
    ("price", ⟨false, [Cell.num 100, Cell.num 200, Cell.num 400]⟩)]⟩

/-- A reference property present in `dfThree`, carrying its identifier. -/
def refOnlyId : List (String × Cell) := [("id", Cell.num 1)]

/-- Two listings with identical prices — and hence identical similarity
scores against any reference. -/
def dfTie : DF :=
  ⟨[("id", ⟨false, [Cell.num 1, Cell.num 2]⟩),
    ("price", ⟨false, [Cell.num 100, Cell.num 100]⟩)]⟩

/-- A one-row frame carrying the mock model's three features. -/
def dfMockFull : DF :=
  ⟨[("square_feet", ⟨false, [Cell.num 1000]⟩),
    ("bedrooms", ⟨false, [Cell.num 2]⟩),
    ("bathrooms", ⟨false, [Cell.num 1]⟩)]⟩

/-- The list of training-schema features missing from the given column
labels, in schema order, counting each label once (the order in which
`predict` adds zero columns). -/
def missingOf : List String → List String → List String
  | [], _ => []
  | f :: t, ns => if ns.contains f then missingOf t ns else f :: missingOf t (ns ++ [f])

/-! # Theorems settling the claims -/

/-- C1, counterexample: the claim extends the band invariant to negative
point estimates, but at the model output -100000 the construction gives
lower_bound = -90000 and upper_bound = -110000, so
lower_bound ≤ predicted_price ≤ upper_bound fails. -/
theorem C1_counterexample_negative_estimate :
    ¬ ((predictionResult (-100000)).lower_bound ≤ (predictionResult (-100000)).predicted_price ∧
      (predictionResult (-100000)).predicted_price ≤ (predictionResult (-100000)).upper_bound) := by
  simp only [predictionResult, confidence]
  norm_num

/-- C1, amended: for every nonnegative model output the band brackets the
point estimate, and for every model output (negative ones included) the
band is symmetric: upper_bound - predicted_price = predicted_price -
lower_bound. -/
theorem C1_band_properties (p : ℚ) :
    (0 ≤ p →
      (predictionResult p).lower_bound ≤ (predictionResult p).predicted_price ∧
      (predictionResult p).predicted_price ≤ (predictionResult p).upper_bound) ∧
    (predictionResult p).upper_bound - (predictionResult p).predicted_price =
      (predictionResult p).predicted_price - (predictionResult p).lower_bound := by
  refine ⟨fun hp => ⟨?_, ?_⟩, ?_⟩ <;> simp only [predictionResult, confidence] <;> nlinarith

/-- C1 witness: the amended band theorem at the concrete output 200000. -/
theorem C1_band_properties_witness :
    (predictionResult 200000).lower_bound ≤ (predictionResult 200000).predicted_price ∧
    (predictionResult 200000).predicted_price ≤ (predictionResult 200000).upper_bound :=
  (C1_band_properties 200000).1 (by norm_num)

/-- C7: every generated record's price is at least 100000 (the price is
max(round-to-thousand(raw), 100000), line 78 of property_data.py) and its
year_built — drawn from randint(1950, 2023), line 30 — is at most the
current year, for any current year from 2023 on. -/
theorem C7_generator_bounds (i : ℕ) (loc ptype : String) (bedrooms : ℕ)
    (bathrooms : ℚ) (sqft : ℕ) (year : ℤ) (g pl gd : Bool) (noise : ℚ) (cy : ℤ)
    (_hy1 : 1950 ≤ year) (hy2 : year ≤ 2023) (hcy : 2023 ≤ cy) :
    100000 ≤ (genRecord i loc ptype bedrooms bathrooms sqft year g pl gd noise).price ∧
    (genRecord i loc ptype bedrooms bathrooms sqft year g pl gd noise).year_built ≤ cy := by
  constructor
  · exact le_max_right _ _
  · exact le_trans hy2 hcy

/-- C7 witness: the generator bounds at a concrete draw (today's year is
2026 ≥ 2023). -/
theorem C7_generator_bounds_witness :
    100000 ≤ (genRecord 1 "Riga Center" "Luxury Villa" 5 4 4200 2018 true false true 1).price ∧
    (genRecord 1 "Riga Center" "Luxury Villa" 5 4 4200 2018 true false true 1).year_built ≤ 2026 :=
  C7_generator_bounds 1 "Riga Center" "Luxury Villa" 5 4 4200 2018 true false true 1 2026
    (by norm_num) (by norm_num) (by norm_num)

/-- C2: predict, evaluate and save_model yield an explicit failure exactly
when the state is untrained, and that failure is notTrained; load_model
yields an explicit failure exactly when the path is absent from the file
system, and that failure is fileNotFound; these are the only explicit
failures any of the four operations surfaces. -/
theorem C2_explicit_failures (st : PState) (input : PredictInput) (mo : ℚ)
    (y_test y_pred : List Cell) (filepath : String) (fs : List String) :
    ((∃ e, predict st input mo = Except.error e) ↔ st.model_trained = false) ∧
    (∀ e, predict st input mo = Except.error e → e = PError.notTrained) ∧
    ((∃ e, evaluate st y_test y_pred = Except.error e) ↔ st.model_trained = false) ∧
    (∀ e, evaluate st y_test y_pred = Except.error e → e = PError.notTrained) ∧
    ((∃ e, save_model st filepath fs = Except.error e) ↔ st.model_trained = false) ∧
    (∀ e, save_model st filepath fs = Except.error e → e = PError.notTrained) ∧
    ((∃ e, load_model st filepath fs = Except.error e) ↔ filepath ∉ fs) ∧
    (∀ e, load_model st filepath fs = Except.error e → e = PError.fileNotFound) := by
  cases h : st.model_trained <;> by_cases hm : filepath ∈ fs <;> cases input <;>
    simp [predict, evaluate, save_model, load_model, h, hm]

/-- C2 witness: on an untrained state every operation fails, with the
expected error kinds, over an empty file system. -/
theorem C2_explicit_failures_witness :
    (∃ e, predict ⟨false, []⟩ (PredictInput.dict []) 0 = Except.error e) ∧
    (∃ e, load_model ⟨false, []⟩ "model.joblib" [] = Except.error e) ∧
    PError.notTrained = PError.notTrained := by
  refine ⟨?_, ?_, ?_⟩
  · exact ((C2_explicit_failures ⟨false, []⟩ (PredictInput.dict []) 0 [] [] "model.joblib"
      []).1).mpr rfl
  · exact ((C2_explicit_failures ⟨false, []⟩ (PredictInput.dict []) 0 [] [] "model.joblib"
      []).2.2.2.2.2.2.1).mpr (List.not_mem_nil _)
  · exact (C2_explicit_failures ⟨false, []⟩ (PredictInput.dict []) 0 [] [] "model.joblib"
      []).2.1 PError.notTrained rfl

/-- Helper: looking a key up in an association list whose key list does
not contain it yields none. -/
theorem lookup_none_of_not_mem_keys {β : Type} (l : List (String × β)) (nm : String)
    (h : nm ∉ l.map Prod.fst) : l.lookup nm = none := by
  induction l with
  | nil => rfl
  | cons p t ih =>
      simp only [List.map_cons, List.mem_cons, not_or] at h
      cases hbeq : nm == p.fst with
      | true => exact absurd (eq_of_beq hbeq) h.1
      | false =>
          rcases p with ⟨k, v⟩
          simpa [List.lookup, hbeq] using ih h.2

/-- Helper: a frame without the column yields no feature cell. -/
theorem getFeatureCell_none (df : DF) (nm : String) (h : df.hasCol nm = false) :
    getFeatureCell df nm = none := by
  have hmem : nm ∉ df.cols.map Prod.fst := by
    intro hmem
    simp [DF.hasCol, DF.names, hmem] at h
  simp [getFeatureCell, lookup_none_of_not_mem_keys _ _ hmem]

/-- C8: the demo fallback estimator never propagates an internal error:
whenever the try-block raises — in particular when the frame lacks the
square_feet column — predict returns the constant-mean estimate
250000 + fbNoise; and on the normal path it returns the fixed linear
formula over square_feet, bedrooms and bathrooms (plus the Gaussian draw)
floored at 50000. -/
theorem C8_mock_never_propagates (df : DF) (noise fbNoise : ℚ) :
    (∀ e, mockTryPrice df noise = Except.error e →
      mockPredict df noise fbNoise = Cell.num (250000 + fbNoise)) ∧
    (df.hasCol "square_feet" = false →
      mockPredict df noise fbNoise = Cell.num (250000 + fbNoise)) ∧
    (∀ sq bd ba : ℚ,
      getFeatureCell df "square_feet" = some (Cell.num sq) →
      getFeatureCell df "bedrooms" = some (Cell.num bd) →
      getFeatureCell df "bathrooms" = some (Cell.num ba) →
      mockPredict df noise fbNoise =
        Cell.num (max (150000 + sq * 200 + bd * 25000 + ba * 15000 + noise) 50000)) := by
  refine ⟨?_, ?_, ?_⟩
  · intro e he
    simp [mockPredict, he]
  · intro h
    simp [mockPredict, mockTryPrice, getFeatureCell_none df _ h]
  · intro sq bd ba h1 h2 h3
    have hform : mockTryPrice df noise =
        Except.ok (pyMaxFloor (Cell.num (150000 + sq * 200 + bd * 25000 + ba * 15000 + noise))) := by
      simp [mockTryPrice, h1, h2, h3, sortRank, Cell.cadd, Cell.cmul]
    rcases le_or_lt 50000 (150000 + sq * 200 + bd * 25000 + ba * 15000 + noise) with hge | hlt
    · simp [mockPredict, hform, pyMaxFloor, not_lt.mpr hge, max_eq_left hge]
    · simp [mockPredict, hform, pyMaxFloor, hlt, max_eq_right (le_of_lt hlt)]

/-- C8 witness: the mock estimator on a complete one-row frame (the
formula value) and on an empty frame (the swallowed-error fallback). -/
theorem C8_mock_never_propagates_witness :
    mockPredict dfMockFull 3 7 = Cell.num 415003 ∧
    mockPredict ⟨[]⟩ 0 7 = Cell.num 250007 := by
  constructor
  · have h := (C8_mock_never_propagates dfMockFull 3 7).2.2 1000 2 1 rfl rfl rfl
    rw [h]
    norm_num
  · have h := (C8_mock_never_propagates ⟨[]⟩ 0 7).2.1 rfl
    rw [h]
    norm_num

/-- Helper: folding cadd over finite numbers accumulates the rational
sum. -/
theorem foldl_cadd_num (qs : List ℚ) (a : ℚ) :
    List.foldl Cell.cadd (Cell.num a) (qs.map Cell.num) = Cell.num (a + qs.sum) := by
  induction qs generalizing a with
  | nil => simp
  | cons q t ih => simp [Cell.cadd, ih, add_assoc]

/-- Helper: the numpy sum of finite numbers is their rational sum. -/
theorem csum_map_num (qs : List ℚ) : Cell.csum (qs.map Cell.num) = Cell.num qs.sum := by
  simpa using foldl_cadd_num qs 0

/-- Helper: a list of nonnegative rationals summing to zero is all zero. -/
theorem all_zero_of_sum_nonneg_zero (l : List ℚ) (h0 : ∀ x ∈ l, 0 ≤ x) (hs : l.sum = 0) :
    ∀ x ∈ l, x = 0 := by
  induction l with
  | nil => intro x hx; cases hx
  | cons a t ih =>
      have hts : 0 ≤ t.sum := List.sum_nonneg (fun x hx => h0 x (List.mem_cons_of_mem _ hx))
      have ha : 0 ≤ a := h0 a (List.mem_cons_self _ _)
      have hsum : a + t.sum = 0 := by simpa using hs
      have ha0 : a = 0 := by linarith
      have ht0 : t.sum = 0 := by linarith
      intro x hx
      rcases List.mem_cons.mp hx with rfl | hx
      · exact ha0
      · exact ih (fun y hy => h0 y (List.mem_cons_of_mem _ hy)) ht0 x hx

/-- C9, counterexample: on the perfect-prediction test set [5, 5] the
total sum of squares is zero, so r2 = 1 - 0/0 is NaN, not 1 as the claim
states for every perfect-prediction set. -/
theorem C9_counterexample_constant_targets :
    (evaluateMetrics [Cell.num 5, Cell.num 5] [Cell.num 5, Cell.num 5]).r2 = Cell.nan ∧
    Cell.nan ≠ Cell.num 1 := by
  constructor
  · norm_num [evaluateMetrics, Cell.npMean, Cell.csum, Cell.cadd, Cell.csub, Cell.cmul,
      Cell.cdiv]
  · decide

/-- Helper: differences of a vector with itself are all zero cells. -/
theorem zipWith_csub_self (qs : List ℚ) :
    List.zipWith Cell.csub (qs.map Cell.num) (qs.map Cell.num) =
      List.replicate qs.length (Cell.num 0) := by
  induction qs with
  | nil => rfl
  | cons q t ih =>
      show Cell.csub (Cell.num q) (Cell.num q) ::
        List.zipWith Cell.csub (t.map Cell.num) (t.map Cell.num) =
        Cell.num 0 :: List.replicate t.length (Cell.num 0)
      rw [ih]
      congr 1
      simp [Cell.csub]

/-- Helper: the numpy sum of zero cells is the zero cell. -/
theorem csum_replicate_zero (n : ℕ) :
    Cell.csum (List.replicate n (Cell.num 0)) = Cell.num 0 := by
  have h := csum_map_num (List.replicate n (0 : ℚ))
  simpa using h

/-- Helper: the numpy mean of a nonempty all-zero vector is zero. -/
theorem npMean_replicate_zero (n : ℕ) (hn : n ≠ 0) :
    Cell.npMean (List.replicate n (Cell.num 0)) = Cell.num 0 := by
  have hq : ((n : ℚ)) ≠ 0 := by exact_mod_cast hn
  simp only [Cell.npMean, csum_replicate_zero, List.length_replicate, Cell.cdiv]
  rw [if_neg hq]
  norm_num

/-- C9, amended: on every nonempty perfect-prediction test set, evaluate
returns mse = 0, rmse = 0 and mae = 0 — constant target vectors included;
r2 = 1 holds additionally whenever the targets are not all equal
(otherwise the total sum of squares is zero and r2 is NaN via 0/0, as the
counterexample shows). -/
theorem C9_perfect_evaluation (qs : List ℚ) (hne : qs ≠ []) :
    (evaluateMetrics (qs.map Cell.num) (qs.map Cell.num)).mse = Cell.num 0 ∧
    (evaluateMetrics (qs.map Cell.num) (qs.map Cell.num)).rmse = Cell.num 0 ∧
    (evaluateMetrics (qs.map Cell.num) (qs.map Cell.num)).mae = Cell.num 0 ∧
    ((∃ a ∈ qs, ∃ b ∈ qs, a ≠ b) →
      (evaluateMetrics (qs.map Cell.num) (qs.map Cell.num)).r2 = Cell.num 1) := by
  have hn : qs.length ≠ 0 := fun h => hne (List.eq_nil_of_length_eq_zero h)
  have hqlen : ((qs.length : ℚ)) ≠ 0 := by exact_mod_cast hn
  have hsqlist : (List.zipWith Cell.csub (qs.map Cell.num) (qs.map Cell.num)).map
      (fun d => Cell.cmul d d) = List.replicate qs.length (Cell.num 0) := by
    rw [zipWith_csub_self, List.map_replicate]
    norm_num [Cell.cmul]
  have habslist : (List.zipWith Cell.csub (qs.map Cell.num) (qs.map Cell.num)).map
      Cell.cabs = List.replicate qs.length (Cell.num 0) := by
    rw [zipWith_csub_self, List.map_replicate]
    norm_num [Cell.cabs]
  have hmse : (evaluateMetrics (qs.map Cell.num) (qs.map Cell.num)).mse = Cell.num 0 := by
    show Cell.npMean ((List.zipWith Cell.csub (qs.map Cell.num) (qs.map Cell.num)).map
      (fun d => Cell.cmul d d)) = Cell.num 0
    rw [hsqlist]
    exact npMean_replicate_zero _ hn
  refine ⟨hmse, ?_, ?_, ?_⟩
  · show Cell.csqrt (Cell.npMean ((List.zipWith Cell.csub (qs.map Cell.num)
      (qs.map Cell.num)).map (fun d => Cell.cmul d d))) = Cell.num 0
    rw [hsqlist, npMean_replicate_zero _ hn]
    simp [Cell.csqrt]
  · show Cell.npMean ((List.zipWith Cell.csub (qs.map Cell.num) (qs.map Cell.num)).map
      Cell.cabs) = Cell.num 0
    rw [habslist]
    exact npMean_replicate_zero _ hn
  · intro hnc
    set m : ℚ := qs.sum / (qs.length : ℚ) with hm
    have hymean : Cell.npMean (qs.map Cell.num) = Cell.num m := by
      simp only [Cell.npMean, csum_map_num, List.length_map, Cell.cdiv]
      rw [if_neg hqlen]
    set T : ℚ := (qs.map (fun q => (q - m) * (q - m))).sum with hT
    have htss : Cell.csum ((qs.map Cell.num).map (fun y =>
        Cell.cmul (Cell.csub y (Cell.npMean (qs.map Cell.num)))
          (Cell.csub y (Cell.npMean (qs.map Cell.num))))) = Cell.num T := by
      rw [hymean]
      have hmap : (qs.map Cell.num).map (fun y =>
          Cell.cmul (Cell.csub y (Cell.num m)) (Cell.csub y (Cell.num m))) =
          (qs.map (fun q => (q - m) * (q - m))).map Cell.num := by
        simp [List.map_map, Function.comp, Cell.csub, Cell.cmul]
      rw [hmap, csum_map_num]
    have hTne : T ≠ 0 := by
      intro h0
      have hall : ∀ x ∈ qs.map (fun q => (q - m) * (q - m)), x = 0 := by
        refine all_zero_of_sum_nonneg_zero _ ?_ ?_
        · intro x hx
          rcases List.mem_map.mp hx with ⟨q, _, rfl⟩
          exact mul_self_nonneg _
        · rw [← hT]; exact h0
      have hqm : ∀ q ∈ qs, q = m := by
        intro q hq
        have h1 := hall _ (List.mem_map_of_mem _ hq)
        have h2 := mul_self_eq_zero.mp h1
        linarith
      rcases hnc with ⟨a, ha, b, hb, hab⟩
      exact hab ((hqm a ha).trans (hqm b hb).symm)
    show Cell.csub (Cell.num 1) (Cell.cdiv (Cell.csum ((List.zipWith Cell.csub
      (qs.map Cell.num) (qs.map Cell.num)).map (fun d => Cell.cmul d d)))
      (Cell.csum ((qs.map Cell.num).map (fun y =>
        Cell.cmul (Cell.csub y (Cell.npMean (qs.map Cell.num)))
          (Cell.csub y (Cell.npMean (qs.map Cell.num))))))) = Cell.num 1
    rw [hsqlist, csum_replicate_zero, htss]
    simp only [Cell.cdiv]
    rw [if_neg hTne]
    norm_num [Cell.csub]

/-- Helper: assigning a fresh column label appends the column. -/
theorem setCol_fresh (d : DF) (f : String) (c : Col) (h : d.hasCol f = false) :
    d.setCol f c = ⟨d.cols ++ [(f, c)]⟩ := by
  simp [DF.setCol, h]

/-- Helper: appending a column of the current height preserves the row
count. -/
theorem nrows_append_zero (d : DF) (f : String) (z : Cell) :
    (DF.mk (d.cols ++ [(f, ⟨false, List.replicate d.nrows z⟩)])).nrows = d.nrows := by
  rcases d with ⟨cols⟩
  cases cols with
  | nil => simp [DF.nrows]
  | cons c t => simp [DF.nrows]

/-- Helper: predict's missing-feature loop appends exactly the missing
schema features, in schema order, as zero columns of the frame's height,
and touches nothing else. -/
theorem addMissing_eq (features : List String) (df : DF) :
    addMissingFeatures features df =
      ⟨df.cols ++ (missingOf features df.names).map
        (fun f => (f, ⟨false, List.replicate df.nrows (Cell.num 0)⟩))⟩ := by
  induction features generalizing df with
  | nil =>
      show df = _
      rcases df with ⟨cols⟩
      simp [missingOf]
  | cons f t ih =>
      by_cases h : df.hasCol f
      · have h1 : addMissingFeatures (f :: t) df = addMissingFeatures t df := by
          simp [addMissingFeatures, h]
        have h2 : missingOf (f :: t) df.names = missingOf t df.names := by
          have hc : df.names.contains f = true := h
          simp only [missingOf, hc]
          simp
        rw [h1, h2, ih]
      · rw [Bool.not_eq_true] at h
        have h1 : addMissingFeatures (f :: t) df =
            addMissingFeatures t ⟨df.cols ++
              [(f, ⟨false, List.replicate df.nrows (Cell.num 0)⟩)]⟩ := by
          simp [addMissingFeatures, h, setCol_fresh df f _ h]
        have hnames : (DF.mk (df.cols ++
            [(f, ⟨false, List.replicate df.nrows (Cell.num 0)⟩)])).names = df.names ++ [f] := by
          simp [DF.names]
        have hnr : (DF.mk (df.cols ++
            [(f, ⟨false, List.replicate df.nrows (Cell.num 0)⟩)])).nrows = df.nrows :=
          nrows_append_zero df f _
        have hm : missingOf (f :: t) df.names = f :: missingOf t (df.names ++ [f]) := by
          have hc : df.names.contains f = false := h
          simp only [missingOf, hc]
          simp
        rw [h1, ih, hnames, hnr, hm]
        simp

/-- C10: on a trained state, predict with a DataFrame argument hands the
caller back that same frame mutated in place — each training-schema
feature missing from it is appended as a zero column — so when some
schema feature is missing, the caller's frame after the call differs from
the frame passed in; a dictionary argument is returned unchanged, because
predict first converts it to a fresh one-row frame. -/
theorem C10_predict_frame_mutation (st : PState) (df : DF) (d : List (String × Cell)) (mo : ℚ)
    (ht : st.model_trained = true) :
    predict st (PredictInput.frame df) mo =
      Except.ok (predictionResult mo, PredictInput.frame (addMissingFeatures st.features df)) ∧
    addMissingFeatures st.features df =
      ⟨df.cols ++ (missingOf st.features df.names).map
        (fun f => (f, ⟨false, List.replicate df.nrows (Cell.num 0)⟩))⟩ ∧
    (missingOf st.features df.names ≠ [] → addMissingFeatures st.features df ≠ df) ∧
    predict st (PredictInput.dict d) mo =
      Except.ok (predictionResult mo, PredictInput.dict d) := by
  refine ⟨?_, addMissing_eq _ _, ?_, ?_⟩
  · simp [predict, ht]
  · intro hm heq
    rw [addMissing_eq] at heq
    have hlen := congrArg (fun x => x.cols.length) heq
    simp at hlen
    exact hm hlen
  · simp [predict, ht]

/-- C10 witness: a trained one-feature schema mutates a frame lacking it,
and leaves a dictionary argument unchanged. -/
theorem C10_predict_frame_mutation_witness :
    addMissingFeatures ["square_feet"] dfPriceObj ≠ dfPriceObj ∧
    predict ⟨true, ["square_feet"]⟩ (PredictInput.dict []) 0 =
      Except.ok (predictionResult 0, PredictInput.dict []) :=
  ⟨(C10_predict_frame_mutation ⟨true, ["square_feet"]⟩ dfPriceObj [] 0 rfl).2.2.1 (by decide),
   (C10_predict_frame_mutation ⟨true, ["square_feet"]⟩ dfPriceObj [] 0 rfl).2.2.2⟩

/-- Helper: a cell at a valid index is a member. -/
theorem list_getD_mem {α : Type} (l : List α) (i : ℕ) (d : α) (h : i < l.length) :
    l.getD i d ∈ l := by
  induction l generalizing i with
  | nil => simp at h
  | cons x t ih =>
      cases i with
      | zero => simp
      | succ j =>
          have := ih j (by simpa using h)
          simpa using Or.inr this

/-- Helper: zipWith at a valid index is the pointwise application. -/
theorem list_getD_zipWith (f : Cell → Cell → Cell) (l m : List Cell) (i : ℕ)
    (hl : i < l.length) (hm : i < m.length) :
    (List.zipWith f l m).getD i Cell.nan = f (l.getD i Cell.nan) (m.getD i Cell.nan) := by
  induction l generalizing m i with
  | nil => simp at hl
  | cons x t ih =>
      cases m with
      | nil => simp at hm
      | cons y s =>
          cases i with
          | zero => simp
          | succ j =>
              simpa using ih s j (by simpa using hl) (by simpa using hm)

/-- Helper: cadd with a non-finite right operand is non-finite. -/
theorem cadd_nonnum_right (a c : Cell) (h : Cell.isNum c = false) :
    Cell.isNum (Cell.cadd a c) = false := by
  cases a <;> cases c <;> simp [Cell.cadd, Cell.isNum] at h ⊢

/-- Helper: cadd with a non-finite left operand is non-finite. -/
theorem cadd_nonnum_left (a c : Cell) (h : Cell.isNum a = false) :
    Cell.isNum (Cell.cadd a c) = false := by
  cases a <;> cases c <;> simp [Cell.cadd, Cell.isNum] at h ⊢

/-- Helper: folding cadd from a non-finite accumulator stays non-finite. -/
theorem foldl_cadd_nonnum (l : List Cell) (a : Cell) (h : Cell.isNum a = false) :
    Cell.isNum (l.foldl Cell.cadd a) = false := by
  induction l generalizing a with
  | nil => exact h
  | cons x t ih => exact ih _ (cadd_nonnum_left _ _ h)

/-- Helper: a sum over a list with a non-finite member is non-finite. -/
theorem csum_nonnum_of_mem (l : List Cell) (c : Cell) (hc : c ∈ l)
    (h : Cell.isNum c = false) : Cell.isNum (Cell.csum l) = false := by
  rcases List.append_of_mem hc with ⟨s, t, rfl⟩
  show Cell.isNum ((s ++ c :: t).foldl Cell.cadd (Cell.num 0)) = false
  rw [List.foldl_append, List.foldl_cons]
  exact foldl_cadd_nonnum _ _ (cadd_nonnum_right _ _ h)

/-- Helper: dividing a non-finite value by a finite one is non-finite. -/
theorem cdiv_nonnum_num (a : Cell) (k : ℚ) (h : Cell.isNum a = false) :
    Cell.isNum (Cell.cdiv a (Cell.num k)) = false := by
  cases a with
  | num q => simp [Cell.isNum] at h
  | inf => by_cases hk : 0 ≤ k <;> simp [Cell.cdiv, Cell.isNum, hk]
  | ninf => by_cases hk : 0 ≤ k <;> simp [Cell.cdiv, Cell.isNum, hk]
  | str s => simp [Cell.cdiv, Cell.isNum]
  | nan => simp [Cell.cdiv, Cell.isNum]
  | sqrtv q => simp [Cell.cdiv, Cell.isNum]
  | dt q => simp [Cell.cdiv, Cell.isNum]

/-- Helper: the pandas mean of a list containing an infinity is not a
finite number. -/
theorem pdMean_nonnum_of_mem (l : List Cell) (c : Cell) (hc : c ∈ l)
    (hnan : c ≠ Cell.nan) (h : Cell.isNum c = false) :
    Cell.isNum (Cell.pdMean l) = false := by
  have hcv : c ∈ l.filter (fun x => x ≠ Cell.nan) :=
    List.mem_filter.mpr ⟨hc, by simpa using hnan⟩
  cases hvs : l.filter (fun x => x ≠ Cell.nan) with
  | nil =>
      rw [hvs] at hcv
      exact absurd hcv (List.not_mem_nil c)
  | cons v vs =>
      have hsum : Cell.isNum (Cell.csum (v :: vs)) = false := by
        rw [← hvs]
        refine csum_nonnum_of_mem _ _ ?_ h
        rw [hvs]
        rw [hvs] at hcv
        exact hcv
      show Cell.isNum (Cell.pdMean l) = false
      simp only [Cell.pdMean, hvs]
      exact cdiv_nonnum_num _ _ hsum

/-- C4, counterexample: on a batch with a zero-area listing of price
100000 the ratio is computed with no guard: the listing's price_per_sqft
cell is +inf — the result is neither zero nor is the listing skipped —
and the mean propagates it. -/
theorem C4_counterexample_zero_area :
    (DataProcessor.generate_market_insights dfZeroArea).1.avg_price_per_sqft = Cell.inf ∧
    Cell.inf ≠ Cell.num 0 := by
  constructor
  · decide
  · decide

/-- C4, amended: the ratio computations carry no explicit zero guard.
The operations never fault — they are total and return a value — but on a
frame with a zero-area listing of nonzero price the per-listing ratio is
a signed infinity (not zero, and the listing is not skipped), so
avg_price_per_sqft is not a finite number; likewise the find_similar
normalised distance with a zero column maximum and distinct operands is
+inf rather than zero. -/
theorem C4_unguarded_divisions (df : DF) (i : ℕ) (p : ℚ)
    (h0 : df.nrows ≠ 0)
    (hsq : df.hasCol "square_feet" = true)
    (hp : (df.colCells "price").getD i Cell.nan = Cell.num p)
    (hpne : p ≠ 0)
    (ha : (df.colCells "square_feet").getD i Cell.nan = Cell.num 0)
    (hip : i < (df.colCells "price").length)
    (hia : i < (df.colCells "square_feet").length) :
    (∀ q : ℚ, (DataProcessor.generate_market_insights df).1.avg_price_per_sqft ≠ Cell.num q) ∧
    (∀ (col : List Cell) (a r : ℚ), pdMax col = Cell.num 0 → a ≠ r →
      Cell.cdiv (Cell.cabs (Cell.csub (Cell.num a) (Cell.num r))) (pdMax col) = Cell.inf) := by
  constructor
  · intro q hq
    have havg : (DataProcessor.generate_market_insights df).1.avg_price_per_sqft =
        Cell.pdMean (List.zipWith Cell.cdiv (df.colCells "price")
          (df.colCells "square_feet")) := by
      simp [DataProcessor.generate_market_insights, h0, hsq]
    set ratio := List.zipWith Cell.cdiv (df.colCells "price") (df.colCells "square_feet")
      with hratio
    have hcell : ratio.getD i Cell.nan = Cell.cdiv (Cell.num p) (Cell.num 0) := by
      rw [hratio, list_getD_zipWith _ _ _ _ hip hia, hp, ha]
    have hval : Cell.cdiv (Cell.num p) (Cell.num 0) = Cell.inf ∨
        Cell.cdiv (Cell.num p) (Cell.num 0) = Cell.ninf := by
      rcases lt_or_gt_of_ne hpne with hneg | hpos
      · right
        simp [Cell.cdiv, hpne, not_lt.mpr (le_of_lt hneg)]
      · left
        simp [Cell.cdiv, hpne, hpos]
    have hmem : ratio.getD i Cell.nan ∈ ratio := by
      apply list_getD_mem
      rw [hratio, List.length_zipWith]
      exact lt_min hip hia
    have hnonnum : Cell.isNum (Cell.pdMean ratio) = false := by
      rcases hval with hv | hv
      · rw [hcell, hv] at hmem
        exact pdMean_nonnum_of_mem _ _ hmem (by decide) (by decide)
      · rw [hcell, hv] at hmem
        exact pdMean_nonnum_of_mem _ _ hmem (by decide) (by decide)
    rw [← havg, hq] at hnonnum
    simp [Cell.isNum] at hnonnum
  · intro col a r hmax hne
    rw [hmax]
    have habs : (0 : ℚ) < |a - r| := abs_pos.mpr (sub_ne_zero.mpr hne)
    simp [Cell.csub, Cell.cabs, Cell.cdiv, ne_of_gt habs, habs]

/-- C4 witness: the unguarded-division theorem at the concrete zero-area
frame, and the find_similar distance at a zero column maximum. -/
theorem C4_unguarded_divisions_witness :
    (DataProcessor.generate_market_insights dfZeroArea).1.avg_price_per_sqft ≠ Cell.num 0 ∧
    Cell.cdiv (Cell.cabs (Cell.csub (Cell.num 1) (Cell.num 0))) (pdMax [Cell.num 0]) =
      Cell.inf := by
  have h := C4_unguarded_divisions dfZeroArea 0 100000 (by decide) (by decide) rfl
    (by norm_num) rfl (by decide) (by decide)
  exact ⟨h.1 0, h.2 [Cell.num 0] 1 0 (by decide) (by norm_num)⟩

namespace DataProcessor

/-- Helper: replacing missing cells is the identity when none are
missing. -/
theorem map_fill_id (cells : List Cell) (m : Cell) (h : ∀ c ∈ cells, c ≠ Cell.nan) :
    cells.map (fun c => if c = Cell.nan then m else c) = cells := by
  conv_rhs => rw [← List.map_id cells]
  exact List.map_congr_left (fun c hc => by simp [h c hc])

/-- Helper: fillna does nothing on a column without missing cells. -/
theorem fillna_no_nan (cells : List Cell) (h : ∀ c ∈ cells, c ≠ Cell.nan) :
    fillnaMedian cells = cells := by
  unfold fillnaMedian
  cases hm : medianCell cells <;> first | rfl | exact map_fill_id _ _ h

/-- Helper: with a usable median, fillna is the elementwise replacement. -/
theorem fillna_fill (cells : List Cell) (hm : medianCell cells ≠ Cell.nan) :
    fillnaMedian cells =
      cells.map (fun c => if c = Cell.nan then medianCell cells else c) := by
  unfold fillnaMedian
  cases hmed : medianCell cells <;> first | exact absurd hmed hm | rfl

/-- Helper: after a successful fill no missing cell remains. -/
theorem no_nan_after_fill (cells : List Cell) (c : Cell)
    (hm : medianCell cells ≠ Cell.nan) (hc : c ∈ fillnaMedian cells) : c ≠ Cell.nan := by
  rw [fillna_fill cells hm] at hc
  rcases List.mem_map.mp hc with ⟨x, _, rfl⟩
  by_cases hxn : x = Cell.nan
  · simpa [hxn] using hm
  · simpa [hxn] using hxn

/-- Helper: median imputation is idempotent. -/
theorem fillna_idem (cells : List Cell) :
    fillnaMedian (fillnaMedian cells) = fillnaMedian cells := by
  by_cases hm : medianCell cells = Cell.nan
  · have h1 : fillnaMedian cells = cells := by
      unfold fillnaMedian
      rw [hm]
    rw [h1]
    exact h1
  · exact fillna_no_nan _ (fun c hc => no_nan_after_fill cells c hm hc)

/-- Helper: membership through stable insertion. -/
theorem mem_insertByLt {α : Type} (lt : α → α → Bool) (x a : α) (l : List α) :
    a ∈ RealEstate.insertByLt lt x l ↔ a = x ∨ a ∈ l := by
  induction l with
  | nil => simp [RealEstate.insertByLt]
  | cons y t ih =>
      unfold RealEstate.insertByLt
      by_cases hlt : lt y x = true
      · rw [if_pos hlt]
        simp only [List.mem_cons, ih]
        try tauto
      · rw [if_neg hlt]
        simp only [List.mem_cons]
        try tauto

/-- Helper: the stable sort preserves membership. -/
theorem mem_sortByLt {α : Type} (lt : α → α → Bool) (a : α) (l : List α) :
    a ∈ RealEstate.sortByLt lt l ↔ a ∈ l := by
  induction l with
  | nil => simp [RealEstate.sortByLt]
  | cons x t ih => simp [RealEstate.sortByLt, mem_insertByLt, ih]

/-- Helper: cdiv never yields a string cell. -/
theorem cdiv_ne_str (a b : Cell) (s : String) : Cell.cdiv a b ≠ Cell.str s := by
  cases a <;> cases b <;> simp only [Cell.cdiv] <;> (repeat' split) <;> simp

/-- Helper: the column median is never a string cell. -/
theorem median_not_str (cells : List Cell) (s : String) :
    medianCell cells ≠ Cell.str s := by
  simp only [medianCell]
  split
  · simp
  · split
    · intro hmem
      have hin := list_getD_mem (RealEstate.sortByLt RealEstate.keyLtB
        (cells.filter (fun c => c ≠ Cell.nan && !(sortRank c = 4 : Bool))))
        ((RealEstate.sortByLt RealEstate.keyLtB
          (cells.filter (fun c => c ≠ Cell.nan && !(sortRank c = 4 : Bool)))).length / 2)
        Cell.nan (Nat.div_lt_self (Nat.pos_of_ne_zero (by assumption)) one_lt_two)
      rw [hmem] at hin
      rw [mem_sortByLt] at hin
      have := (List.mem_filter.mp hin).2
      simp [sortRank] at this
    · exact cdiv_ne_str _ _ s

/-- Helper: the strict year check fails on every clamped cell. -/
theorem clamp_gtz_false (cy : ℤ) (l : List Cell) :
    ∀ c ∈ clampYear cy l, cellGtZ c cy = false := by
  intro c hc
  rcases List.mem_map.mp hc with ⟨x, _, rfl⟩
  cases hg : cellGtZ x cy
  · simpa [hg] using hg
  · simp [hg, cellGtZ]

/-- Helper: clamping is the identity when no cell exceeds the year. -/
theorem clamp_id (cy : ℤ) (l : List Cell) (h : ∀ c ∈ l, cellGtZ c cy = false) :
    clampYear cy l = l := by
  conv_rhs => rw [← List.map_id l]
  exact List.map_congr_left (fun c hc => by simp [clampYear, h c hc])

/-- Helper: the mean of two cells within the year bound stays within it. -/
theorem gtz_half_add (cy : ℤ) (a b : Cell)
    (ha1 : a ≠ Cell.nan) (ha2 : sortRank a ≠ 4) (hga : cellGtZ a cy = false)
    (hb1 : b ≠ Cell.nan) (hb2 : sortRank b ≠ 4) (hgb : cellGtZ b cy = false) :
    cellGtZ (Cell.cdiv (Cell.cadd a b) (Cell.num 2)) cy = false := by
  have h2 : (2 : ℚ) ≠ 0 := by norm_num
  have h02 : (0 : ℚ) ≤ 2 := by norm_num
  cases a <;> cases b <;>
    simp_all [sortRank, cellGtZ, Cell.cadd, Cell.cdiv, h2, h02] <;> linarith

/-- Helper: the median of cells within the year bound stays within it. -/
theorem median_gtz_false (cy : ℤ) (cells : List Cell)
    (h : ∀ c ∈ cells, cellGtZ c cy = false) :
    cellGtZ (medianCell cells) cy = false := by
  have hmem : ∀ c ∈ RealEstate.sortByLt RealEstate.keyLtB
      (cells.filter (fun c => c ≠ Cell.nan && !(sortRank c = 4 : Bool))),
      c ≠ Cell.nan ∧ sortRank c ≠ 4 ∧ cellGtZ c cy = false := by
    intro c hc
    rw [mem_sortByLt] at hc
    rcases List.mem_filter.mp hc with ⟨hcl, hpred⟩
    simp only [Bool.and_eq_true, decide_eq_true_eq, Bool.not_eq_true] at hpred
    refine ⟨hpred.1, ?_, h c hcl⟩
    intro h4
    simp [h4] at hpred
  simp only [medianCell]
  split
  · rfl
  · rename_i hk0
    have hpos : 0 < (RealEstate.sortByLt RealEstate.keyLtB
        (cells.filter (fun c => c ≠ Cell.nan && !(sortRank c = 4 : Bool)))).length :=
      Nat.pos_of_ne_zero hk0
    split
    · have hin := list_getD_mem (RealEstate.sortByLt RealEstate.keyLtB
        (cells.filter (fun c => c ≠ Cell.nan && !(sortRank c = 4 : Bool))))
        ((RealEstate.sortByLt RealEstate.keyLtB
          (cells.filter (fun c => c ≠ Cell.nan && !(sortRank c = 4 : Bool)))).length / 2)
        Cell.nan (Nat.div_lt_self hpos one_lt_two)
      exact (hmem _ hin).2.2
    · have hin1 := list_getD_mem (RealEstate.sortByLt RealEstate.keyLtB
        (cells.filter (fun c => c ≠ Cell.nan && !(sortRank c = 4 : Bool))))
        ((RealEstate.sortByLt RealEstate.keyLtB
          (cells.filter (fun c => c ≠ Cell.nan && !(sortRank c = 4 : Bool)))).length / 2 - 1)
        Cell.nan (lt_of_le_of_lt (Nat.sub_le _ _) (Nat.div_lt_self hpos one_lt_two))
      have hin2 := list_getD_mem (RealEstate.sortByLt RealEstate.keyLtB
        (cells.filter (fun c => c ≠ Cell.nan && !(sortRank c = 4 : Bool))))
        ((RealEstate.sortByLt RealEstate.keyLtB
          (cells.filter (fun c => c ≠ Cell.nan && !(sortRank c = 4 : Bool)))).length / 2)
        Cell.nan (Nat.div_lt_self hpos one_lt_two)
      rcases hmem _ hin1 with ⟨h1a, h1b, h1c⟩
      rcases hmem _ hin2 with ⟨h2a, h2b, h2c⟩
      exact gtz_half_add cy _ _ h1a h1b h1c h2a h2b h2c

/-- Helper: numeric coercion never yields a string cell. -/
theorem tn_not_str (c : Cell) (s : String) : to_numeric_cell c ≠ Cell.str s := by
  cases c <;> simp [to_numeric_cell] <;> split <;> simp

/-- Helper: numeric coercion is the identity off string cells. -/
theorem tn_id_not_str (c : Cell) (h : ∀ s, c ≠ Cell.str s) : to_numeric_cell c = c := by
  cases c <;> first | rfl | exact absurd rfl (h _)

/-- Helper: mapping numeric coercion over string-free cells is the
identity. -/
theorem map_tn_id (l : List Cell) (h : ∀ c ∈ l, ∀ s, c ≠ Cell.str s) :
    l.map to_numeric_cell = l := by
  conv_rhs => rw [← List.map_id l]
  exact List.map_congr_left (fun c hc => tn_id_not_str c (h c hc))

/-- Helper: the cells produced by the year_built pass are string-free. -/
theorem yearstep_mem_not_str (cy : ℤ) (X : List Cell) (c : Cell)
    (hc : c ∈ fillnaMedian (clampYear cy (X.map to_numeric_cell))) (s : String) :
    c ≠ Cell.str s := by
  have hclamp : ∀ d ∈ clampYear cy (X.map to_numeric_cell), ∀ t, d ≠ Cell.str t := by
    intro d hd t
    rcases List.mem_map.mp hd with ⟨x, hx, rfl⟩
    rcases List.mem_map.mp hx with ⟨y, _, rfl⟩
    by_cases hg : cellGtZ (to_numeric_cell y) cy = true
    · simp [hg]
    · simp only [hg, if_neg]
      simpa [hg] using tn_not_str y t
  by_cases hm : medianCell (clampYear cy (X.map to_numeric_cell)) = Cell.nan
  · have heq : fillnaMedian (clampYear cy (X.map to_numeric_cell)) =
        clampYear cy (X.map to_numeric_cell) := by
      unfold fillnaMedian
      rw [hm]
    rw [heq] at hc
    exact hclamp c hc s
  · rw [fillna_fill _ hm] at hc
    rcases List.mem_map.mp hc with ⟨x, hx, rfl⟩
    by_cases hxn : x = Cell.nan
    · simpa [hxn] using median_not_str _ s
    · simpa [hxn] using hclamp x hx s

/-- Helper: the cells produced by the year_built pass never exceed the
current year. -/
theorem yearstep_gtz_false (cy : ℤ) (X : List Cell) (c : Cell)
    (hc : c ∈ fillnaMedian (clampYear cy (X.map to_numeric_cell))) :
    cellGtZ c cy = false := by
  by_cases hm : medianCell (clampYear cy (X.map to_numeric_cell)) = Cell.nan
  · have heq : fillnaMedian (clampYear cy (X.map to_numeric_cell)) =
        clampYear cy (X.map to_numeric_cell) := by
      unfold fillnaMedian
      rw [hm]
    rw [heq] at hc
    exact clamp_gtz_false cy _ c hc
  · rw [fillna_fill _ hm] at hc
    rcases List.mem_map.mp hc with ⟨x, hx, rfl⟩
    by_cases hxn : x = Cell.nan
    · simpa [hxn] using median_gtz_false cy _ (clamp_gtz_false cy _)
    · simpa [hxn] using clamp_gtz_false cy _ x hx

/-- Helper: repeating the year_built pass after a second imputation
changes nothing. -/
theorem yearstep_idem (cy : ℤ) (X : List Cell) :
    fillnaMedian (clampYear cy
      ((fillnaMedian (fillnaMedian (clampYear cy (X.map to_numeric_cell)))).map
        to_numeric_cell)) =
      fillnaMedian (clampYear cy (X.map to_numeric_cell)) := by
  rw [fillna_idem]
  rw [map_tn_id _ (fun c hc s => yearstep_mem_not_str cy X c hc s)]
  rw [clamp_id cy _ (fun c hc => yearstep_gtz_false cy X c hc)]
  exact fillna_idem _

/-- Helper: the Unknown-sentinel fill is idempotent. -/
theorem unk_idem (cells : List Cell) :
    (cells.map (fun c => if c = Cell.nan then Cell.str "Unknown" else c)).map
      (fun c => if c = Cell.nan then Cell.str "Unknown" else c) =
      cells.map (fun c => if c = Cell.nan then Cell.str "Unknown" else c) := by
  rw [List.map_map]
  refine List.map_congr_left (fun c _ => ?_)
  by_cases hcn : c = Cell.nan <;> simp [hcn, Function.comp]

/-- Helper: cleanCol on the year_built output reproduces it. -/
theorem cleanCol_year_idem (cy : ℤ) (A : List Cell) :
    cleanCol cy "year_built"
      ⟨false, fillnaMedian (clampYear cy (A.map to_numeric_cell))⟩ =
      ⟨false, fillnaMedian (clampYear cy (A.map to_numeric_cell))⟩ := by
  have h := yearstep_idem cy A
  simp only [cleanCol, numericNames]
  norm_num
  exact h

/-- Helper: cleanCol on a non-object column other than year_built is the
median imputation. -/
theorem cleanCol_nonobj (cy : ℤ) (name : String) (cells : List Cell)
    (hy : name ≠ "year_built") :
    cleanCol cy name ⟨false, cells⟩ = ⟨false, fillnaMedian cells⟩ := by
  simp [cleanCol, hy]


/-- Helper: cleanCol on an object column whose name triggers no
conversion is the Unknown fill. -/
theorem cleanCol_obj_other (cy : ℤ) (name : String) (cells : List Cell)
    (hy : name ≠ "year_built") (hp : name ≠ "price") (hn : name ∉ numericNames) :
    cleanCol cy name ⟨true, cells⟩ =
      ⟨true, cells.map (fun c => if c = Cell.nan then Cell.str "Unknown" else c)⟩ := by
  simp [cleanCol, hy, hp, hn]

/-- Helper: cleanCol is idempotent on any column whose name is not a
text-extracted numeric column of object dtype. -/
theorem cleanCol_idem (cy : ℤ) (name : String) (col : Col)
    (h : (name = "price" ∨ name ∈ numericNames) → col.obj = false) :
    cleanCol cy name (cleanCol cy name col) = cleanCol cy name col := by
  rcases col with ⟨obj, cells⟩
  by_cases hy : name = "year_built"
  · subst hy
    cases obj with
    | false =>
        have hin : cleanCol cy "year_built" (⟨false, cells⟩ : Col) =
            ⟨false, fillnaMedian (clampYear cy
              ((fillnaMedian cells).map to_numeric_cell))⟩ := by
          simp [cleanCol, numericNames]
        rw [hin, cleanCol_year_idem]
    | true =>
        have hin : cleanCol cy "year_built" (⟨true, cells⟩ : Col) =
            ⟨false, fillnaMedian (clampYear cy
              ((cells.map (fun c => if c = Cell.nan then Cell.str "Unknown" else c)).map
                to_numeric_cell))⟩ := by
          simp [cleanCol, numericNames]
        rw [hin, cleanCol_year_idem]
  · cases obj with
    | true =>
        have hp : name ≠ "price" := by
          intro hp
          simpa using h (Or.inl hp)
        have hn : name ∉ numericNames := by
          intro hn
          simpa using h (Or.inr hn)
        rw [cleanCol_obj_other cy name cells hy hp hn,
          cleanCol_obj_other cy name _ hy hp hn, unk_idem]
    | false =>
        rw [cleanCol_nonobj cy name cells hy, cleanCol_nonobj cy name _ hy, fillna_idem]

/-- C6, counterexample: clean is not idempotent.  On an object-dtype price
column holding a number and a missing entry, the first clean replaces the
missing entry by the "Unknown" sentinel and then converts the column,
turning the sentinel into NaN; the second clean median-imputes that NaN,
so clean(clean(x)) differs from clean(x). -/
theorem C6_counterexample_object_price :
    (clean_property_data 2026 (clean_property_data 2026 dfPriceObj).1).1 ≠
      (clean_property_data 2026 dfPriceObj).1 := by decide

/-- C6, amended: clean is idempotent on every table whose price,
square_feet, bedrooms and bathrooms columns (when present) are not of
object dtype; for object-dtype ones, the first clean's text extraction
can leave NaN (from the "Unknown" sentinel or unparsable text) that only
the second clean imputes. -/
theorem C6_clean_idempotent (cy : ℤ) (df : DF)
    (h : ∀ p ∈ df.cols, (p.1 = "price" ∨ p.1 ∈ numericNames) → p.2.obj = false) :
    (clean_property_data cy (clean_property_data cy df).1).1 =
      (clean_property_data cy df).1 := by
  rcases df with ⟨cols⟩
  show DF.mk ((cols.map (fun p => (p.1, cleanCol cy p.1 p.2))).map
      (fun p => (p.1, cleanCol cy p.1 p.2))) =
    DF.mk (cols.map (fun p => (p.1, cleanCol cy p.1 p.2)))
  rw [List.map_map]
  congr 1
  refine List.map_congr_left (fun p hp => ?_)
  simp only [Function.comp]
  rw [cleanCol_idem cy p.1 p.2 (h p hp)]

/-- C6 witness: idempotence at a concrete numeric table. -/
theorem C6_clean_idempotent_witness :
    (clean_property_data 2026 (clean_property_data 2026 dfZeroArea).1).1 =
      (clean_property_data 2026 dfZeroArea).1 :=
  C6_clean_idempotent 2026 dfZeroArea (by decide)

end DataProcessor

/-- Helper: every column selected by a row indexer has that indexer's
length. -/
theorem selectRows_cols_length (d : DF) (idx : List ℕ) :
    ∀ c ∈ (d.selectRows idx).cols, c.2.cells.length = idx.length := by
  intro c hc
  rcases List.mem_map.mp hc with ⟨p, _, rfl⟩
  simp

/-- Helper: a name-preserving column transform keeps the labels. -/
theorem names_map_pres (cols : List (String × Col)) (g : String → Col → Col) :
    (cols.map (fun p => (p.1, g p.1 p.2))).map Prod.fst = cols.map Prod.fst := by
  rw [List.map_map]
  exact List.map_congr_left (fun p _ => rfl)

/-- Helper: column presence via label membership. -/
theorem hasCol_iff_mem (d : DF) (nm : String) : d.hasCol nm = true ↔ nm ∈ d.names := by
  simp [DF.hasCol]

/-- Helper: column assignment either keeps the labels or appends the new
one. -/
theorem names_setCol (d : DF) (f : String) (c : Col) :
    (d.setCol f c).names = d.names ∨ (d.setCol f c).names = d.names ++ [f] := by
  unfold DF.setCol
  by_cases hf : d.hasCol f
  · left
    rw [if_pos hf]
    show (d.cols.map _).map Prod.fst = _
    rw [List.map_map]
    exact List.map_congr_left (fun p _ => by by_cases hp : p.1 = f <;> simp [hp])
  · right
    rw [if_neg hf]
    simp [DF.names]

/-- Helper: column assignment preserves present columns. -/
theorem hasCol_setCol (d : DF) (f nm : String) (c : Col) (h : d.hasCol nm = true) :
    (d.setCol f c).hasCol nm = true := by
  rw [hasCol_iff_mem] at h ⊢
  rcases names_setCol d f c with he | he <;> rw [he]
  · exact h
  · exact List.mem_append_left _ h

/-- Helper: the scoring pass preserves present columns. -/
theorem hasCol_addScoreCols (df : DF) (ref : List (String × Cell)) (nm : String)
    (h : df.hasCol nm = true) :
    (DataProcessor.addScoreCols df ref).hasCol nm = true := by
  unfold DataProcessor.addScoreCols
  have hgen : ∀ (ws : List (String × ℚ)) (d : DF), d.hasCol nm = true →
      (ws.foldl (fun d fw =>
        match d.hasCol fw.1, ref.lookup fw.1 with
        | true, some rv =>
            let mx := pdMax (d.colCells fw.1)
            let diffs := (d.colCells fw.1).map
              (fun c => Cell.cdiv (Cell.cabs (Cell.csub c rv)) mx)
            (d.setCol (fw.1 ++ "_diff") ⟨false, diffs⟩).setCol (fw.1 ++ "_score")
              ⟨false, diffs.map (fun c => Cell.cmul c (Cell.num fw.2))⟩
        | _, _ => d) d).hasCol nm = true := by
    intro ws
    induction ws with
    | nil => intro d hd; exact hd
    | cons fw t ih =>
        intro d hd
        rw [List.foldl_cons]
        apply ih
        cases hdc : d.hasCol fw.1 <;> cases hlk : ref.lookup fw.1 <;>
          simp only [] <;> first
          | exact hd
          | exact hasCol_setCol _ _ _ _ (hasCol_setCol _ _ _ _ hd)
  exact hgen _ _ h

/-- Helper: the scoring pass appends only auxiliary-labelled columns. -/
theorem names_addScoreCols (df : DF) (ref : List (String × Cell)) :
    ∃ ext, (DataProcessor.addScoreCols df ref).names = df.names ++ ext ∧
      ∀ s ∈ ext, (strEndsWith s "_diff" || strEndsWith s "_score") = true := by
  unfold DataProcessor.addScoreCols
  have hsuffix : ∀ (a b : String), strEndsWith (a ++ b) b = true := by
    intro a b
    simp only [strEndsWith, Bool.and_eq_true, decide_eq_true_eq]
    constructor
    · rw [String.data_append, List.length_append]
      omega
    · rw [String.data_append, List.length_append, Nat.add_sub_cancel, List.drop_left]
  have hgen : ∀ (ws : List (String × ℚ)) (d : DF),
      ∃ ext, (ws.foldl (fun d fw =>
        match d.hasCol fw.1, ref.lookup fw.1 with
        | true, some rv =>
            let mx := pdMax (d.colCells fw.1)
            let diffs := (d.colCells fw.1).map
              (fun c => Cell.cdiv (Cell.cabs (Cell.csub c rv)) mx)
            (d.setCol (fw.1 ++ "_diff") ⟨false, diffs⟩).setCol (fw.1 ++ "_score")
              ⟨false, diffs.map (fun c => Cell.cmul c (Cell.num fw.2))⟩
        | _, _ => d) d).names = d.names ++ ext ∧
        ∀ s ∈ ext, (strEndsWith s "_diff" || strEndsWith s "_score") = true := by
    intro ws
    induction ws with
    | nil => intro d; exact ⟨[], by simp⟩
    | cons fw t ih =>
        intro d
        rw [List.foldl_cons]
        have hstep : ∃ ext0, (match d.hasCol fw.1, ref.lookup fw.1 with
            | true, some rv =>
                let mx := pdMax (d.colCells fw.1)
                let diffs := (d.colCells fw.1).map
                  (fun c => Cell.cdiv (Cell.cabs (Cell.csub c rv)) mx)
                (d.setCol (fw.1 ++ "_diff") ⟨false, diffs⟩).setCol (fw.1 ++ "_score")
                  ⟨false, diffs.map (fun c => Cell.cmul c (Cell.num fw.2))⟩
            | _, _ => d).names = d.names ++ ext0 ∧
            ∀ s ∈ ext0, (strEndsWith s "_diff" || strEndsWith s "_score") = true := by
          cases hdc : d.hasCol fw.1 <;> cases hlk : ref.lookup fw.1 <;>
            simp only []
          · exact ⟨[], by simp⟩
          · exact ⟨[], by simp⟩
          · exact ⟨[], by simp⟩
          · rcases names_setCol d (fw.1 ++ "_diff")
              ⟨false, (d.colCells fw.1).map (fun c => Cell.cdiv (Cell.cabs (Cell.csub c _))
                (pdMax (d.colCells fw.1)))⟩ with h1 | h1 <;>
              rcases names_setCol (d.setCol (fw.1 ++ "_diff") _) (fw.1 ++ "_score")
                ⟨false, _⟩ with h2 | h2 <;>
              rw [h2, h1]
            · exact ⟨[], by simp⟩
            · exact ⟨[fw.1 ++ "_score"], by simp [hsuffix]⟩
            · exact ⟨[fw.1 ++ "_diff"], by simp [hsuffix]⟩
            · refine ⟨[fw.1 ++ "_diff", fw.1 ++ "_score"], by rw [List.append_assoc]; rfl, ?_⟩
              intro s hs
              rcases List.mem_cons.mp hs with rfl | hs2
              · simp [hsuffix]
              · rcases List.mem_cons.mp hs2 with rfl | hs3
                · simp [hsuffix]
                · cases hs3
        rcases hstep with ⟨ext0, he0, ha0⟩
        rcases ih (match d.hasCol fw.1, ref.lookup fw.1 with
          | true, some rv =>
              let mx := pdMax (d.colCells fw.1)
              let diffs := (d.colCells fw.1).map
                (fun c => Cell.cdiv (Cell.cabs (Cell.csub c rv)) mx)
              (d.setCol (fw.1 ++ "_diff") ⟨false, diffs⟩).setCol (fw.1 ++ "_score")
                ⟨false, diffs.map (fun c => Cell.cmul c (Cell.num fw.2))⟩
          | _, _ => d) with ⟨ext1, he1, ha1⟩
        refine ⟨ext0 ++ ext1, ?_, ?_⟩
        · rw [he1, he0, List.append_assoc]
        · intro s hs
          rcases List.mem_append.mp hs with hs0 | hs1
          · exact ha0 s hs0
          · exact ha1 s hs1
  exact hgen _ _

/-- Helper: a present key has a lookup value. -/
theorem lookup_some_of_mem_keys {β : Type} (l : List (String × β)) (nm : String)
    (h : nm ∈ l.map Prod.fst) : ∃ v, l.lookup nm = some v := by
  induction l with
  | nil => simp at h
  | cons p t ih =>
      rcases p with ⟨k, v⟩
      by_cases hk : nm = k
      · exact ⟨v, by simp [List.lookup, hk]⟩
      · have hbeq : (nm == k) = false := beq_eq_false_iff_ne.mpr hk
        have hmem : nm ∈ t.map Prod.fst := by
          simp only [List.map_cons] at h
          rcases List.mem_cons.mp h with h1 | h1
          · exact absurd h1 hk
          · exact h1
        rcases ih hmem with ⟨w, hw⟩
        exact ⟨w, by simp [List.lookup, hbeq, hw]⟩

/-- Helper: filtering by a label-only predicate that keeps the key does
not affect its lookup. -/
theorem lookup_filter_keep {β : Type} (l : List (String × β)) (nm : String)
    (q : String × β → Bool) (pred : String → Bool)
    (hdep : ∀ p, q p = pred p.1) (h : pred nm = true) :
    (l.filter q).lookup nm = l.lookup nm := by
  induction l with
  | nil => rfl
  | cons p t ih =>
      rcases p with ⟨k, v⟩
      by_cases hk : nm = k
      · subst hk
        rw [List.filter_cons, if_pos (by rw [hdep]; exact h)]
        simp [List.lookup]
      · have hbeq : (nm == k) = false := beq_eq_false_iff_ne.mpr hk
        rw [List.filter_cons]
        by_cases hq : q (k, v) = true
        · rw [if_pos hq]
          simp only [List.lookup, hbeq]
          exact ih
        · rw [if_neg hq]
          rw [ih]
          simp [List.lookup, hbeq]

/-- Helper: a label-preserving column transform maps lookups. -/
theorem lookup_map_pres (cols : List (String × Col)) (nm : String)
    (F : String × Col → String × Col) (hF : ∀ p, (F p).1 = p.1) :
    (cols.map F).lookup nm = (cols.lookup nm).map (fun c => (F (nm, c)).2) := by
  induction cols with
  | nil => rfl
  | cons p t ih =>
      rcases p with ⟨k, v⟩
      by_cases hk : nm = k
      · subst hk
        have h1 : List.lookup nm ((nm, v) :: t) = some v := by simp [List.lookup]
        have h2 : List.lookup nm (F (nm, v) :: t.map F) = some (F (nm, v)).2 := by
          rcases hFk : F (nm, v) with ⟨k2, v2⟩
          have hk2 : k2 = nm := by
            have hh := hF (nm, v)
            rw [hFk] at hh
            exact hh
          subst hk2
          simp [List.lookup, hFk]
        rw [List.map_cons, h2, h1]
        rfl
      · have hbeq : (nm == k) = false := beq_eq_false_iff_ne.mpr hk
        have h1 : List.lookup nm ((k, v) :: t) = List.lookup nm t := by
          simp [List.lookup, hbeq]
        have h2 : List.lookup nm (F (k, v) :: t.map F) = List.lookup nm (t.map F) := by
          rcases hFk : F (k, v) with ⟨k2, v2⟩
          have hk2 : k2 = k := by
            have hh := hF (k, v)
            rw [hFk] at hh
            exact hh
          rw [hk2]
          simp [List.lookup, hbeq]
        rw [List.map_cons, h2, h1, ih]

/-- Helper: zipping a predicate image with its source pairs each cell
with its own test. -/
theorem zip_map_self (cells : List Cell) (pred : Cell → Bool) :
    (cells.map pred).zip cells = cells.map (fun c => (pred c, c)) := by
  induction cells with
  | nil => rfl
  | cons c t ih => simp [ih]

/-- Helper: masking a column by its own predicate image is filtering. -/
theorem maskCol_self (cells : List Cell) (o : Bool) (pred : Cell → Bool) :
    DF.maskCol (cells.map pred) ⟨o, cells⟩ = ⟨o, cells.filter pred⟩ := by
  unfold DF.maskCol
  rw [zip_map_self]
  congr 1
  induction cells with
  | nil => rfl
  | cons c t ih =>
      by_cases hc : pred c <;> simp [hc, ih]

/-- Helper: an indexed read is a member or the default. -/
theorem getD_mem_or_default {α : Type} (l : List α) (i : ℕ) (d : α) :
    l.getD i d ∈ l ∨ l.getD i d = d := by
  by_cases hi : i < l.length
  · exact Or.inl (list_getD_mem l i d hi)
  · right
    rw [List.getD_eq_default]
    omega

/-- Helper: NaN is pandas-equal to nothing. -/
theorem cellEqB_nan_left (rid : Cell) : cellEqB Cell.nan rid = false := by
  cases rid <;> rfl

/-- Helper: dropping the reference row leaves an id column whose cells
all differ from the reference id. -/
theorem similar_id_filter (d1 : DF) (rid : Cell) (colId : Col)
    (hlk : d1.cols.lookup "id" = some colId) :
    ∃ colId2,
      (d1.maskRows ((d1.colCells "id").map (fun c => !cellEqB c rid))).cols.lookup "id" =
        some colId2 ∧ ∀ x ∈ colId2.cells, cellEqB x rid = false := by
  have hcells : d1.colCells "id" = colId.cells := by
    simp [DF.colCells, hlk]
  refine ⟨DF.maskCol ((d1.colCells "id").map (fun c => !cellEqB c rid)) colId, ?_, ?_⟩
  · show (d1.cols.map (fun p => (p.1,
      DF.maskCol ((d1.colCells "id").map (fun c => !cellEqB c rid)) p.2))).lookup "id" = _
    rw [lookup_map_pres d1.cols "id" (fun p => (p.1,
      DF.maskCol ((d1.colCells "id").map (fun c => !cellEqB c rid)) p.2)) (fun p => rfl), hlk]
    rfl
  · rw [hcells]
    rcases colId with ⟨o, cells⟩
    rw [maskCol_self]
    intro x hx
    have := (List.mem_filter.mp hx).2
    simpa using this

/-- Helper: the head-selection and column-stripping step keeps only id
cells drawn from the filtered id column (or the NaN pad), so none equals
the reference id. -/
theorem similar_result_id (d2 : DF) (idx : List ℕ) (rid : Cell) (colId2 : Col)
    (hlk : d2.cols.lookup "id" = some colId2)
    (hall : ∀ x ∈ colId2.cells, cellEqB x rid = false) :
    ∀ c ∈ (DF.mk ((d2.selectRows idx).cols.filter
        (fun p => !(strEndsWith p.1 "_diff" || strEndsWith p.1 "_score")))).colCells "id",
      cellEqB c rid = false := by
  intro c hc
  have hsel : (d2.selectRows idx).cols.lookup "id" =
      some ⟨colId2.obj, idx.map (fun i => colId2.cells.getD i Cell.nan)⟩ := by
    show (d2.cols.map (fun p => (p.1,
      (⟨p.2.obj, idx.map (fun i => p.2.cells.getD i Cell.nan)⟩ : Col)))).lookup "id" = _
    rw [lookup_map_pres d2.cols "id" (fun p => (p.1,
      (⟨p.2.obj, idx.map (fun i => p.2.cells.getD i Cell.nan)⟩ : Col))) (fun p => rfl), hlk]
    rfl
  have hflt : ((d2.selectRows idx).cols.filter
      (fun p => !(strEndsWith p.1 "_diff" || strEndsWith p.1 "_score"))).lookup "id" =
      some ⟨colId2.obj, idx.map (fun i => colId2.cells.getD i Cell.nan)⟩ := by
    rw [lookup_filter_keep _ _ _
      (fun s => !(strEndsWith s "_diff" || strEndsWith s "_score")) (fun p => rfl)
      (by decide), hsel]
  have hcol : (DF.mk ((d2.selectRows idx).cols.filter
      (fun p => !(strEndsWith p.1 "_diff" || strEndsWith p.1 "_score")))).colCells "id" =
      idx.map (fun i => colId2.cells.getD i Cell.nan) := by
    show (match ((d2.selectRows idx).cols.filter
        (fun p => !(strEndsWith p.1 "_diff" || strEndsWith p.1 "_score"))).lookup "id" with
      | some c => c.cells
      | none => ([] : List Cell)) = _
    rw [hflt]
  rw [hcol] at hc
  rcases List.mem_map.mp hc with ⟨i, _, rfl⟩
  rcases getD_mem_or_default colId2.cells i Cell.nan with hm | hd
  · exact hall _ hm
  · rw [hd]
    exact cellEqB_nan_left rid

/-- Helper: label-level filtering commutes with taking labels. -/
theorem map_fst_filter_pred (cols : List (String × Col)) (q : String × Col → Bool)
    (pred : String → Bool) (hdep : ∀ p, q p = pred p.1) :
    ((cols.filter q).map Prod.fst) = (cols.map Prod.fst).filter pred := by
  induction cols with
  | nil => rfl
  | cons p t ih =>
      rw [List.filter_cons, List.map_cons, List.filter_cons, hdep p]
      by_cases hp : pred p.1 <;> simp [hp, ih]

/-- Helper: a label-preserving column transform keeps the label list. -/
theorem map_fst_map_pres (cols : List (String × Col)) (F : String × Col → String × Col)
    (hF : ∀ p, (F p).1 = p.1) :
    (cols.map F).map Prod.fst = cols.map Prod.fst := by
  rw [List.map_map]
  exact List.map_congr_left (fun p _ => hF p)

/-- Helper: looking a key up past an appended pair with a different key
is unchanged. -/
theorem lookup_append_single {β : Type} (l : List (String × β)) (f nm : String) (c : β)
    (hnm : nm ≠ f) : (l ++ [(f, c)]).lookup nm = l.lookup nm := by
  induction l with
  | nil => simp [List.lookup, beq_eq_false_iff_ne.mpr hnm]
  | cons p t ih =>
      rcases p with ⟨k, v⟩
      by_cases hk : nm = k
      · subst hk
        simp [List.lookup]
      · have hbeq : (nm == k) = false := beq_eq_false_iff_ne.mpr hk
        simp only [List.cons_append, List.lookup, hbeq]
        exact ih

/-- Helper: assigning one column leaves every other lookup unchanged. -/
theorem lookup_setCol_other (d : DF) (f nm : String) (c : Col) (hnm : nm ≠ f) :
    (d.setCol f c).cols.lookup nm = d.cols.lookup nm := by
  unfold DF.setCol
  by_cases hf : d.hasCol f
  · rw [if_pos hf]
    show (d.cols.map (fun p => if p.1 = f then (f, c) else p)).lookup nm = _
    rw [lookup_map_pres d.cols nm (fun p => if p.1 = f then (f, c) else p)
      (fun p => by by_cases hp : p.1 = f <;> simp [hp])]
    cases h : d.cols.lookup nm <;> simp [hnm]
  · rw [if_neg hf]
    show (d.cols ++ [(f, c)]).lookup nm = _
    exact lookup_append_single _ _ _ _ hnm

/-- Helper: assigning an already-present column replaces exactly it. -/
theorem lookup_setCol_self (d : DF) (f : String) (c : Col) (hf : d.hasCol f = true) :
    (d.setCol f c).cols.lookup f = some c := by
  unfold DF.setCol
  rw [if_pos hf]
  show (d.cols.map (fun p => if p.1 = f then (f, c) else p)).lookup f = _
  rw [lookup_map_pres d.cols f (fun p => if p.1 = f then (f, c) else p)
    (fun p => by by_cases hp : p.1 = f <;> simp [hp])]
  obtain ⟨v, hv⟩ := lookup_some_of_mem_keys d.cols f ((hasCol_iff_mem d f).mp hf)
  rw [hv]
  simp

/-- Helper: cell-level reading of `lookup_setCol_other`. -/
theorem colCells_setCol_other (d : DF) (f nm : String) (c : Col) (hnm : nm ≠ f) :
    (d.setCol f c).colCells nm = d.colCells nm := by
  unfold DF.colCells
  rw [lookup_setCol_other d f nm c hnm]

/-- Helper: cell-level reading of `lookup_setCol_self`. -/
theorem colCells_setCol_self (d : DF) (f : String) (c : Col) (hf : d.hasCol f = true) :
    (d.setCol f c).colCells f = c.cells := by
  unfold DF.colCells
  rw [lookup_setCol_self d f c hf]

/-- Helper: the assigned column label is present afterwards. -/
theorem hasCol_setCol_self (d : DF) (f : String) (c : Col) :
    (d.setCol f c).hasCol f = true := by
  unfold DF.setCol
  by_cases hf : d.hasCol f
  · rw [if_pos hf]
    rw [hasCol_iff_mem] at hf ⊢
    show f ∈ (d.cols.map (fun p => if p.1 = f then (f, c) else p)).map Prod.fst
    rw [map_fst_map_pres _ _ (fun p => by by_cases hp : p.1 = f <;> simp [hp])]
    exact hf
  · rw [if_neg hf]
    rw [hasCol_iff_mem]
    show f ∈ (d.cols ++ [(f, c)]).map Prod.fst
    rw [List.map_append]
    exact List.mem_append_right _ (by simp)

/-- Helper: an in-range indexed read through a map. -/
theorem getD_map_lt {α β : Type} (g : α → β) (l : List α) (i : ℕ) (d : β) (d2 : α)
    (h : i < l.length) : (l.map g).getD i d = g (l.getD i d2) := by
  rw [List.getD_eq_getElem?_getD, List.getD_eq_getElem?_getD, List.getElem?_map,
    List.getElem?_eq_getElem h]
  simp

/-- C3, counterexample: aggregate_insights is not pure.  On a frame with
rows and a square_feet column it adds the price_per_sqft column to the
caller's frame (line 111 assigns on the un-copied argument), and on a
frame with a price column and a numeric date_listed column it rewrites
the caller's listing dates into timestamps in place (line 132); either
way the caller's data has changed after the call. -/
theorem C3_counterexample_insights_mutates :
    (DataProcessor.generate_market_insights dfZeroArea).2 ≠ dfZeroArea ∧
    (DataProcessor.generate_market_insights dfDateNum).2 ≠ dfDateNum := by
  constructor <;> decide

/-- C3, amended: clean, filter and find_similar are pure — each copies
its input, so the caller's frame after the call is exactly the frame
passed in — but aggregate_insights operates on the un-copied argument.
On a nonempty frame it assigns the price_per_sqft ratio column in place
when square_feet is present (line 111), and afterwards rewrites the
date_listed column through pd.to_datetime in place when date_listed and
price are both present (lines 131-132).  In particular the caller's
frame changes whenever it has rows and a square_feet column but no
price_per_sqft column, and whenever it has rows, a price column and a
date_listed column holding a numeric entry. -/
theorem C3_frame_effects (cy : ℤ) (df : DF) (f : DataProcessor.Filters)
    (ref : List (String × Cell)) (n : ℕ) (perm : List ℕ) :
    (DataProcessor.clean_property_data cy df).2 = df ∧
    (DataProcessor.filter_properties df f).2 = df ∧
    (DataProcessor.get_similar_properties df ref n perm).2 = df ∧
    ((DataProcessor.generate_market_insights df).2 =
      if df.nrows = 0 then df
      else
        let mid := if df.hasCol "square_feet" then
            df.setCol "price_per_sqft"
              ⟨false, List.zipWith Cell.cdiv (df.colCells "price")
                (df.colCells "square_feet")⟩
          else df
        if mid.hasCol "date_listed" && mid.hasCol "price" then
          mid.setCol "date_listed"
            ⟨false, (mid.colCells "date_listed").map DataProcessor.to_datetime_cell⟩
        else mid) ∧
    (df.nrows ≠ 0 → df.hasCol "square_feet" = true → df.hasCol "price_per_sqft" = false →
      (DataProcessor.generate_market_insights df).2 ≠ df) ∧
    (df.nrows ≠ 0 → df.hasCol "date_listed" = true → df.hasCol "price" = true →
      ∀ i q, (df.colCells "date_listed").getD i Cell.nan = Cell.num q →
        (DataProcessor.generate_market_insights df).2 ≠ df) := by
  have hpost : (DataProcessor.generate_market_insights df).2 =
      if df.nrows = 0 then df
      else
        let mid := if df.hasCol "square_feet" then
            df.setCol "price_per_sqft"
              ⟨false, List.zipWith Cell.cdiv (df.colCells "price")
                (df.colCells "square_feet")⟩
          else df
        if mid.hasCol "date_listed" && mid.hasCol "price" then
          mid.setCol "date_listed"
            ⟨false, (mid.colCells "date_listed").map DataProcessor.to_datetime_cell⟩
        else mid := by
    by_cases h0 : df.nrows = 0 <;> by_cases h1 : df.hasCol "square_feet" <;>
      simp [DataProcessor.generate_market_insights, h0, h1]
  refine ⟨rfl, rfl, rfl, hpost, ?_, ?_⟩
  · intro h0 h1 h2 heq
    have hppsf : (DataProcessor.generate_market_insights df).2.hasCol
        "price_per_sqft" = true := by
      by_cases hcond : ((df.setCol "price_per_sqft"
          ⟨false, List.zipWith Cell.cdiv (df.colCells "price")
            (df.colCells "square_feet")⟩).hasCol "date_listed" &&
          (df.setCol "price_per_sqft"
            ⟨false, List.zipWith Cell.cdiv (df.colCells "price")
              (df.colCells "square_feet")⟩).hasCol "price") = true
      · have hgen : (DataProcessor.generate_market_insights df).2 =
            (df.setCol "price_per_sqft"
              ⟨false, List.zipWith Cell.cdiv (df.colCells "price")
                (df.colCells "square_feet")⟩).setCol "date_listed"
              ⟨false, ((df.setCol "price_per_sqft"
                ⟨false, List.zipWith Cell.cdiv (df.colCells "price")
                  (df.colCells "square_feet")⟩).colCells "date_listed").map
                DataProcessor.to_datetime_cell⟩ := by
          simp [DataProcessor.generate_market_insights, h0, h1, hcond]
        rw [hgen]
        exact hasCol_setCol _ _ _ _ (hasCol_setCol_self _ _ _)
      · have hgen : (DataProcessor.generate_market_insights df).2 =
            df.setCol "price_per_sqft"
              ⟨false, List.zipWith Cell.cdiv (df.colCells "price")
                (df.colCells "square_feet")⟩ := by
          simp [DataProcessor.generate_market_insights, h0, h1, hcond]
        rw [hgen]
        exact hasCol_setCol_self _ _ _
    rw [heq, h2] at hppsf
    simp at hppsf
  · intro h0 hd hp i q hq heq
    have hcol : df.colCells "date_listed" =
        (df.colCells "date_listed").map DataProcessor.to_datetime_cell := by
      by_cases h1 : df.hasCol "square_feet" = true
      · have hmd : (df.setCol "price_per_sqft"
            ⟨false, List.zipWith Cell.cdiv (df.colCells "price")
              (df.colCells "square_feet")⟩).hasCol "date_listed" = true :=
          hasCol_setCol _ _ _ _ hd
        have hmp : (df.setCol "price_per_sqft"
            ⟨false, List.zipWith Cell.cdiv (df.colCells "price")
              (df.colCells "square_feet")⟩).hasCol "price" = true :=
          hasCol_setCol _ _ _ _ hp
        have hgen : (DataProcessor.generate_market_insights df).2 =
            (df.setCol "price_per_sqft"
              ⟨false, List.zipWith Cell.cdiv (df.colCells "price")
                (df.colCells "square_feet")⟩).setCol "date_listed"
              ⟨false, ((df.setCol "price_per_sqft"
                ⟨false, List.zipWith Cell.cdiv (df.colCells "price")
                  (df.colCells "square_feet")⟩).colCells "date_listed").map
                DataProcessor.to_datetime_cell⟩ := by
          simp [DataProcessor.generate_market_insights, h0, h1, hmd, hmp]
        rw [hgen] at heq
        conv_lhs => rw [← heq]
        rw [colCells_setCol_self _ _ _ hmd,
          colCells_setCol_other _ _ _ _ (by decide)]
      · have hgen : (DataProcessor.generate_market_insights df).2 =
            df.setCol "date_listed"
              ⟨false, (df.colCells "date_listed").map
                DataProcessor.to_datetime_cell⟩ := by
          simp [DataProcessor.generate_market_insights, h0, h1, hd, hp]
        rw [hgen] at heq
        conv_lhs => rw [← heq]
        rw [colCells_setCol_self _ _ _ hd]
    have hlen : i < (df.colCells "date_listed").length := by
      by_contra hni
      rw [List.getD_eq_default] at hq
      · cases hq
      · omega
    have hL := congrArg (fun l => l.getD i Cell.nan) hcol
    simp only [] at hL
    rw [getD_map_lt _ _ _ _ Cell.nan hlen, hq] at hL
    simp [DataProcessor.to_datetime_cell] at hL

/-- C3 witness: the frame effects at concrete frames where the two
mutation hypotheses hold. -/
theorem C3_frame_effects_witness :
    (DataProcessor.clean_property_data 2026 dfZeroArea).2 = dfZeroArea ∧
    (DataProcessor.generate_market_insights dfZeroArea).2 ≠ dfZeroArea ∧
    (DataProcessor.generate_market_insights dfDateNum).2 ≠ dfDateNum :=
  ⟨(C3_frame_effects 2026 dfZeroArea {} [] 3 []).1,
   (C3_frame_effects 2026 dfZeroArea {} [] 3 []).2.2.2.2.1 (by decide) (by decide)
     (by decide),
   (C3_frame_effects 2026 dfDateNum {} [] 3 []).2.2.2.2.2 (by decide) (by decide)
     (by decide) 0 0 (by decide)⟩

/-- C5, counterexample: the claimed tie-breaking by stable original
order is not part of the sort's contract.  On a batch of two listings
with equal similarity scores, the reversed order [1, 0] satisfies
everything sort_values guarantees (sortValuesSorted — its default
quicksort is documented unstable), and under that admissible order
find_similar returns the tied records with their original order
inverted: ids (2, 1) instead of (1, 2). -/
theorem C5_counterexample_unstable_ties :
    DataProcessor.sortValuesSorted
      (((DataProcessor.addScoreCols dfTie []).setCol "similarity_score"
        ⟨false, DataProcessor.simScoreList (DataProcessor.addScoreCols dfTie [])⟩).colCells
          "similarity_score") [1, 0] ∧
    ((DataProcessor.get_similar_properties dfTie [] 2 [1, 0]).1).colCells "id" =
      [Cell.num 2, Cell.num 1] ∧
    [Cell.num 2, Cell.num 1] ≠ [Cell.num 1, Cell.num 2] := by
  refine ⟨⟨by decide, by decide⟩, by decide, by decide⟩

/-- C5, amended: the find_similar contract, for EVERY row order the
unstable sort may produce.  (i) Every column of the returned frame has
at most k rows; (ii) the scores read along the first k positions of any
admissible order never descend; (iii) when the reference and the batch
both carry an id, no returned id cell equals the reference's; (iv) the
returned column labels are exactly the input labels without an auxiliary
_diff or _score suffix.  No tie-breaking order among equal scores is
guaranteed — see the counterexample. -/
theorem C5_similar_contract (df : DF) (ref : List (String × Cell)) (n : ℕ)
    (perm : List ℕ) :
    (∀ c ∈ ((DataProcessor.get_similar_properties df ref n perm).1).cols,
        c.2.cells.length ≤ n) ∧
    (∀ scores : List Cell, DataProcessor.sortValuesSorted scores perm →
        List.Pairwise (fun a b => keyLtB b a = false)
          ((perm.take n).map (fun i => scores.getD i Cell.nan))) ∧
    (∀ rid, ref.lookup "id" = some rid → df.hasCol "id" = true →
        ∀ c ∈ ((DataProcessor.get_similar_properties df ref n perm).1).colCells "id",
          cellEqB c rid = false) ∧
    (((DataProcessor.get_similar_properties df ref n perm).1).names =
        df.names.filter (fun s => !(strEndsWith s "_diff" || strEndsWith s "_score"))) := by
  refine ⟨?_, ?_, ?_, ?_⟩
  · intro c hc
    simp only [DataProcessor.get_similar_properties] at hc
    have hc2 := List.mem_of_mem_filter hc
    have hlen := selectRows_cols_length _ _ c hc2
    rw [hlen]
    exact List.length_take_le _ _
  · intro scores hs
    rw [List.pairwise_map]
    exact hs.2.sublist (List.take_sublist n perm)
  · intro rid hrid hcol
    have hco1 : ((DataProcessor.addScoreCols df ref).setCol "similarity_score"
        ⟨false, DataProcessor.simScoreList (DataProcessor.addScoreCols df ref)⟩).hasCol
          "id" = true :=
      hasCol_setCol _ _ _ _ (hasCol_addScoreCols df ref "id" hcol)
    obtain ⟨colId, hlkId⟩ := lookup_some_of_mem_keys _ _ ((hasCol_iff_mem _ _).mp hco1)
    intro c hc
    simp only [DataProcessor.get_similar_properties, hrid, hco1] at hc
    obtain ⟨colId2, hlk2, hall2⟩ := similar_id_filter _ rid colId hlkId
    exact similar_result_id _ _ rid colId2 hlk2 hall2 c hc
  · rcases names_addScoreCols df ref with ⟨ext0, he0, ha0⟩
    obtain ⟨ext1, he1, ha1⟩ : ∃ ext1,
        ((DataProcessor.addScoreCols df ref).setCol "similarity_score"
          ⟨false, DataProcessor.simScoreList (DataProcessor.addScoreCols df ref)⟩).names =
          df.names ++ ext1 ∧
          ∀ s ∈ ext1, (strEndsWith s "_diff" || strEndsWith s "_score") = true := by
      rcases names_setCol (DataProcessor.addScoreCols df ref) "similarity_score"
          ⟨false, DataProcessor.simScoreList (DataProcessor.addScoreCols df ref)⟩ with h1 | h1
      · exact ⟨ext0, by rw [h1, he0], ha0⟩
      · refine ⟨ext0 ++ ["similarity_score"], by rw [h1, he0, List.append_assoc], ?_⟩
        intro s hs
        rcases List.mem_append.mp hs with hs0 | hs1
        · exact ha0 s hs0
        · rcases List.mem_cons.mp hs1 with rfl | hnil
          · decide
          · cases hnil
    have hfinal : ∀ d2 : DF, d2.names = df.names ++ ext1 →
        (DF.mk ((d2.selectRows (perm.take n)).cols.filter
          (fun p => !(strEndsWith p.1 "_diff" || strEndsWith p.1 "_score")))).names =
        df.names.filter (fun s => !(strEndsWith s "_diff" || strEndsWith s "_score")) := by
      intro d2 hn2
      show ((d2.selectRows (perm.take n)).cols.filter
        (fun p => !(strEndsWith p.1 "_diff" || strEndsWith p.1 "_score"))).map Prod.fst = _
      rw [map_fst_filter_pred _ _
        (fun s => !(strEndsWith s "_diff" || strEndsWith s "_score")) (fun p => rfl)]
      rw [show (d2.selectRows (perm.take n)).cols.map Prod.fst =
          d2.cols.map Prod.fst from map_fst_map_pres _ _ (fun p => rfl)]
      rw [show d2.cols.map Prod.fst = df.names ++ ext1 from hn2, List.filter_append]
      rw [show ext1.filter (fun s => !(strEndsWith s "_diff" || strEndsWith s "_score")) =
        [] from List.filter_eq_nil_iff.mpr (fun s hs => by simp [ha1 s hs])]
      exact List.append_nil _
    simp only [DataProcessor.get_similar_properties]
    rcases hlk : ref.lookup "id" with _ | rid <;>
      cases hhc : ((DataProcessor.addScoreCols df ref).setCol "similarity_score"
        ⟨false, DataProcessor.simScoreList (DataProcessor.addScoreCols df ref)⟩).hasCol "id"
    · exact hfinal _ he1
    · exact hfinal _ he1
    · exact hfinal _ he1
    · refine hfinal _ ?_
      rw [show (((DataProcessor.addScoreCols df ref).setCol "similarity_score"
          ⟨false, DataProcessor.simScoreList (DataProcessor.addScoreCols df ref)⟩).maskRows
          ((((DataProcessor.addScoreCols df ref).setCol "similarity_score"
            ⟨false, DataProcessor.simScoreList (DataProcessor.addScoreCols df ref)⟩).colCells
              "id").map (fun c => !cellEqB c rid))).names =
          ((DataProcessor.addScoreCols df ref).setCol "similarity_score"
            ⟨false, DataProcessor.simScoreList
              (DataProcessor.addScoreCols df ref)⟩).names from
        map_fst_map_pres _ _ (fun p => rfl)]
      exact he1

/-- C5 witness: the contract at a concrete three-listing batch whose
reference is listing 1, under the admissible order [0, 1]. -/
theorem C5_similar_contract_witness :
    cellEqB ((((DataProcessor.get_similar_properties dfThree refOnlyId 2 [0, 1]).1).colCells
        "id").getD 0 Cell.nan) (Cell.num 1) = false ∧
    ((DataProcessor.get_similar_properties dfThree refOnlyId 2 [0, 1]).1).names =
      dfThree.names.filter (fun s => !(strEndsWith s "_diff" || strEndsWith s "_score")) ∧
    List.Pairwise (fun a b => keyLtB b a = false)
      (([0, 1].take 2).map (fun i => ([Cell.num 0, Cell.num 0] : List Cell).getD i
        Cell.nan)) := by
  refine ⟨?_, ?_, ?_⟩
  · exact (C5_similar_contract dfThree refOnlyId 2 [0, 1]).2.2.1 (Cell.num 1) rfl
      (by decide) _ (by decide)
  · exact (C5_similar_contract dfThree refOnlyId 2 [0, 1]).2.2.2
  · exact (C5_similar_contract dfThree refOnlyId 2 [0, 1]).2.1 [Cell.num 0, Cell.num 0]
      ⟨by decide, by decide⟩

/-- C9 witness: the amended evaluation theorem on the non-constant
perfect-prediction set [1, 3] and on the constant one [5, 5]. -/
theorem C9_perfect_evaluation_witness :
    (evaluateMetrics ([1, 3].map Cell.num) ([1, 3].map Cell.num)).mse = Cell.num 0 ∧
    (evaluateMetrics ([1, 3].map Cell.num) ([1, 3].map Cell.num)).r2 = Cell.num 1 ∧
    (evaluateMetrics ([5, 5].map Cell.num) ([5, 5].map Cell.num)).mae = Cell.num 0 :=
  ⟨(C9_perfect_evaluation [1, 3] (by decide)).1,
   (C9_perfect_evaluation [1, 3] (by decide)).2.2.2 ⟨1, by decide, 3, by decide, by norm_num⟩,
   (C9_perfect_evaluation [5, 5] (by decide)).2.2.1⟩

end RealEstate
